import Mathlib

/-!
Formal model of the multi-room game server in server.js (Bingo, Croc,
Memory, Gomoku).  Rooms are modelled as records; the JS insertion-ordered
Map of players becomes an insertion-ordered list, and the connections Map
becomes an association list from user id to count.  Random draws (room
codes, boards, decks, trap teeth) are passed to the handlers as explicit
oracle arguments; wall-clock instants are passed as a `now` argument.
Handlers return the JSON-level response as an `Except errorId payload`
together with the post-state of the room.
-/

set_option maxRecDepth 8192

abbrev UserId := String

deriving instance DecidableEq for Except

/-- Room status: only the three values "lobby" / "playing" / "ended" occur. -/
inductive Status where
  | lobby
  | playing
  | ended
deriving DecidableEq

/-- First entry with the given key, as JS Map.get on a keyed collection. -/
def findByKey (key : α → UserId) (xs : List α) (u : UserId) : Option α :=
  xs.find? (fun x => decide (key x = u))

/-- JS Map.has. -/
def hasKey (key : α → UserId) (xs : List α) (u : UserId) : Bool :=
  (findByKey key xs u).isSome

/-- JS Map.delete: drop the entry with the given key. -/
def removeByKey (key : α → UserId) (xs : List α) (u : UserId) : List α :=
  xs.filter (fun x => decide (¬ key x = u))

/-- In-place mutation of the entry with the given key (JS object mutation
through a Map reference). -/
def updateByKey (key : α → UserId) (xs : List α) (u : UserId) (f : α → α) : List α :=
  xs.map (fun x => if key x = u then f x else x)

/-- room.connections.get(u) -/
def connGet (c : List (UserId × Nat)) (u : UserId) : Option Nat :=
  (c.find? (fun e => decide (e.1 = u))).map (fun e => e.2)

/-- room.connections.get(u) || 0 -/
def connGetD (c : List (UserId × Nat)) (u : UserId) : Nat :=
  (connGet c u).getD 0

/-- room.connections.has(u) -/
def connHas (c : List (UserId × Nat)) (u : UserId) : Bool :=
  (connGet c u).isSome

/-- room.connections.delete(u) -/
def connDel (c : List (UserId × Nat)) (u : UserId) : List (UserId × Nat) :=
  c.filter (fun e => decide (¬ e.1 = u))

/-- room.connections.set(u, n): update in place if present, else append. -/
def connSet (c : List (UserId × Nat)) (u : UserId) (n : Nat) : List (UserId × Nat) :=
  if connHas c u then c.map (fun e => if e.1 = u then (e.1, n) else e) else c ++ [(u, n)]

/-- The SSE-open bookkeeping on the connections map:
connections.set(u, (connections.get(u) || 0) + 1). -/
def sseOpenConn (c : List (UserId × Nat)) (u : UserId) : List (UserId × Nat) :=
  connSet c u (connGetD c u + 1)

/-- The SSE-close bookkeeping on the connections map: next = max(0, prev-1);
delete when next = 0, else store next.  Nat subtraction is the max(0, ...). -/
def sseCloseConn (c : List (UserId × Nat)) (u : UserId) : List (UserId × Nat) :=
  let next := connGetD c u - 1
  if next = 0 then connDel c u else connSet c u next

/-- The turn-scheduler invariant of the spec: while playing with a non-empty
turn order, turnUserId is the entry at turnCursor mod length; otherwise null. -/
def turnConsistent (status : Status) (turnOrder : List UserId) (turnCursor : Nat)
    (turnUserId : Option UserId) : Prop :=
  if status = .playing ∧ turnOrder ≠ [] then
    turnUserId = turnOrder[turnCursor % turnOrder.length]?
  else turnUserId = none

/-! ## Croc rooms -/

structure CrocPlayer where
  userId : UserId
  username : String
  online : Bool
  alive : Bool
deriving DecidableEq

structure CrocRoom where
  status : Status
  hostUserId : Option UserId
  players : List CrocPlayer
  selectedTeeth : List Nat
  toothCountPerJaw : Nat
  trapTooth : Option Nat
  turnOrder : List UserId
  turnCursor : Nat
  turnUserId : Option UserId
  lastPickedTooth : Option Nat
  lastPickerUserId : Option UserId
  loserUserId : Option UserId
  loserUsername : Option String
  winnerUserId : Option UserId
  winnerUsername : Option String
  connections : List (UserId × Nat)
deriving DecidableEq

/-- crocSetTurnByCursor: normalise the cursor modulo the turn order length and
recompute turnUserId from it (null when the order is empty). -/
def crocSetTurnByCursor (r : CrocRoom) : CrocRoom :=
  if r.turnOrder.length = 0 then { r with turnUserId := none }
  else
    let cursor := r.turnCursor % r.turnOrder.length
    { r with turnCursor := cursor, turnUserId := r.turnOrder[cursor]? }

/-- POST /api/croc/rooms: create a room with the caller as host and sole
player.  The random room code and timestamps are outside the model. -/
def crocCreate (hostId : UserId) (hostName : String) : CrocRoom :=
  { status := .lobby
    hostUserId := some hostId
    players := [{ userId := hostId, username := hostName, online := true, alive := true }]
    selectedTeeth := []
    toothCountPerJaw := 20
    trapTooth := none
    turnOrder := []
    turnCursor := 0
    turnUserId := none
    lastPickedTooth := none
    lastPickerUserId := none
    loserUserId := none
    loserUsername := none
    winnerUserId := none
    winnerUsername := none
    connections := [] }

/-- POST /api/croc/rooms/:code/join. -/
def crocJoin (r : CrocRoom) (u : UserId) (username : String) :
    Except String Unit × CrocRoom :=
  if ¬ r.status = .lobby ∧ ¬ hasKey CrocPlayer.userId r.players u = true then
    (.error "room_not_joinable", r)
  else if hasKey CrocPlayer.userId r.players u then
    let ps := updateByKey CrocPlayer.userId r.players u (fun p => { p with online := true })
    (.ok (), { r with players := ps })
  else
    let np : CrocPlayer := { userId := u, username := username, online := true, alive := true }
    (.ok (), { r with players := r.players ++ [np] })

/-- POST /api/croc/rooms/:code/leave.  Note: when the leaver did not hold the
turn, the handler does not touch turnCursor even though turnOrder shrank. -/
def crocLeave (r : CrocRoom) (u : UserId) : CrocRoom :=
  let leavingWasTurn := r.turnUserId = some u
  let r1 : CrocRoom :=
    { r with players := removeByKey CrocPlayer.userId r.players u
             connections := connDel r.connections u
             turnOrder := r.turnOrder.filter (fun id => decide (¬ id = u)) }
  let r2 : CrocRoom :=
    if r1.hostUserId = some u then
      { r1 with hostUserId := r1.players.head?.map (fun p => p.userId) }
    else r1
  if r2.status = .playing ∧ leavingWasTurn ∧ 0 < r2.turnOrder.length then
    crocSetTurnByCursor
      (if r2.turnOrder.length ≤ r2.turnCursor then { r2 with turnCursor := 0 } else r2)
  else if r2.status = .playing ∧ r2.turnOrder.length = 0 then
    { r2 with status := .ended, turnUserId := none }
  else r2

/-- pruneCrocRoomIfEmpty: the registry drops the room once no players remain. -/
def pruneCrocRoomIfEmpty (r : CrocRoom) : Option CrocRoom :=
  if 0 < r.players.length then some r else none

/-- POST /api/croc/rooms/:code/start.  The trap tooth is a uniform random
draw in [1, 2*toothCountPerJaw]; it enters the model as the oracle `trap`. -/
def crocStart (r : CrocRoom) (caller : UserId) (toothCountPerJaw : Int) (trap : Nat) :
    Except String Unit × CrocRoom :=
  if ¬ r.hostUserId = some caller then (.error "host_only", r)
  else if r.players.length < 2 then (.error "need_two_players", r)
  else if ¬ (8 ≤ toothCountPerJaw ∧ toothCountPerJaw ≤ 20) then
    (.error "invalid_tooth_count_per_jaw", r)
  else
    let n := toothCountPerJaw.toNat
    let r1 : CrocRoom :=
      { r with status := .playing
               toothCountPerJaw := n
               selectedTeeth := []
               trapTooth := some trap
               loserUserId := none
               loserUsername := none
               winnerUserId := none
               winnerUsername := none
               players := r.players.map (fun p => { p with alive := true })
               turnOrder := r.players.map (fun p => p.userId)
               turnCursor := 0
               lastPickedTooth := none
               lastPickerUserId := none }
    (.ok (), crocSetTurnByCursor r1)

/-- POST /api/croc/rooms/:code/pick.  The payload Bool is the `trap` flag of
the response. -/
def crocPick (r : CrocRoom) (caller : UserId) (tooth : Int) :
    Except String Bool × CrocRoom :=
  if ¬ r.status = .playing then (.error "not_playing", r)
  else if ¬ r.turnUserId = some caller then (.error "not_your_turn", r)
  else if ¬ (1 ≤ tooth ∧ tooth ≤ (2 * r.toothCountPerJaw : Int)) then
    (.error "invalid_tooth", r)
  else
    let t := tooth.toNat
    if t ∈ r.selectedTeeth then (.error "already_selected", r)
    else
      let r1 : CrocRoom :=
        { r with selectedTeeth := r.selectedTeeth ++ [t]
                 lastPickedTooth := some t
                 lastPickerUserId := some caller }
      let picker := findByKey CrocPlayer.userId r1.players caller
      if some t = r1.trapTooth then
        let winner := r1.players.find? (fun p => decide (¬ p.userId = caller))
        let ps := updateByKey CrocPlayer.userId r1.players caller (fun p => { p with alive := false })
        (.ok true,
         { r1 with status := .ended
                   turnUserId := none
                   players := ps
                   loserUserId := some caller
                   loserUsername := picker.map (fun p => p.username)
                   winnerUserId := winner.map (fun p => p.userId)
                   winnerUsername := winner.map (fun p => p.username) })
      else if 0 < r1.turnOrder.length then
        (.ok false, crocSetTurnByCursor
          { r1 with turnCursor := (r1.turnCursor + 1) % r1.turnOrder.length })
      else
        (.ok false, { r1 with turnUserId := none })

/-- GET /sse/croc/:code — the state mutation on stream open: membership is
required, then the connection count is bumped and the player marked online. -/
def crocSseOpen (r : CrocRoom) (u : UserId) : Except String Unit × CrocRoom :=
  if ¬ hasKey CrocPlayer.userId r.players u then (.error "not_in_room", r)
  else
    let ps := updateByKey CrocPlayer.userId r.players u (fun p => { p with online := true })
    (.ok (), { r with connections := sseOpenConn r.connections u, players := ps })

/-- The close handler of a croc SSE stream: drop one connection; when the
user has no remaining connections, mark the player offline. -/
def crocSseClose (r : CrocRoom) (u : UserId) : CrocRoom :=
  let c := sseCloseConn r.connections u
  if ¬ connHas c u then
    let ps := updateByKey CrocPlayer.userId r.players u (fun p => { p with online := false })
    { r with connections := c, players := ps }
  else { r with connections := c }

instance (s : Status) (o : List UserId) (c : Nat) (t : Option UserId) :
    Decidable (turnConsistent s o c t) := by
  unfold turnConsistent; infer_instance

/-- The turn invariant specialised to croc rooms. -/
def crocTurnConsistent (r : CrocRoom) : Prop :=
  turnConsistent r.status r.turnOrder r.turnCursor r.turnUserId

instance (r : CrocRoom) : Decidable (crocTurnConsistent r) := by
  unfold crocTurnConsistent; infer_instance

/-! ## Memory rooms -/

structure MemoryCard where
  uid : Nat
  countryKey : String
  flag : String
  nameKo : String
  matched : Bool
deriving DecidableEq

structure MemoryPlayer where
  userId : UserId
  username : String
  online : Bool
  score : Nat
deriving DecidableEq

structure MemoryWinner where
  userId : UserId
  username : String
  score : Nat
deriving DecidableEq

structure MemoryRoom where
  status : Status
  hostUserId : Option UserId
  cardCount : Nat
  matchedCount : Nat
  cards : List MemoryCard
  revealedIndices : List Nat
  resolving : Bool
  resolveTimer : Bool
  turnOrder : List UserId
  turnCursor : Nat
  turnUserId : Option UserId
  winners : List MemoryWinner
  players : List MemoryPlayer
  connections : List (UserId × Nat)
deriving DecidableEq

/-- In-place update of the element at an index, as a JS mutation through
cards[i]; out-of-range indices leave the list unchanged. -/
def listModify (xs : List α) (i : Nat) (f : α → α) : List α :=
  match xs, i with
  | [], _ => []
  | x :: rest, 0 => f x :: rest
  | x :: rest, n + 1 => x :: listModify rest n f

/-- memorySetTurnByCursor, textually identical to the croc version. -/
def memorySetTurnByCursor (r : MemoryRoom) : MemoryRoom :=
  if r.turnOrder.length = 0 then { r with turnUserId := none }
  else
    let cursor := r.turnCursor % r.turnOrder.length
    { r with turnCursor := cursor, turnUserId := r.turnOrder[cursor]? }

/-- clampMemoryCardCount: integers in {20,30,40,50,60}, else null. -/
def clampMemoryCardCount (n : Int) : Option Nat :=
  if n = 20 ∨ n = 30 ∨ n = 40 ∨ n = 50 ∨ n = 60 then some n.toNat else none

/-- memoryFinalizeIfDone: once matchedCount reaches cardCount/2, end the game
and list the players tied for the maximum score.  The JS guard
matchedCount < cardCount/2 is rendered exactly as 2*matchedCount < cardCount;
the max starts from -1 as in the source. -/
def memoryFinalizeIfDone (r : MemoryRoom) : Bool × MemoryRoom :=
  if 2 * r.matchedCount < r.cardCount then (false, r)
  else
    let maxScore : Int := r.players.foldl (fun m p => max m (p.score : Int)) (-1)
    let ws := (r.players.filter (fun p => decide ((p.score : Int) = maxScore))).map
      (fun p => MemoryWinner.mk p.userId p.username p.score)
    (true,
     { r with status := .ended
              turnUserId := none
              revealedIndices := []
              resolving := false
              resolveTimer := false
              winners := ws })

/-- memoryResolveMismatchLater: flag the resolving phase and arm the 1100 ms
timer (the timer handle is a Bool in the model). -/
def memoryResolveMismatchLater (r : MemoryRoom) : MemoryRoom :=
  { r with resolving := true, resolveTimer := true }

/-- The deferred body of the mismatch timer: if still playing, hide the
revealed cards, clear the resolving flag, and advance the turn. -/
def memoryResolveTick (r : MemoryRoom) : MemoryRoom :=
  let r0 : MemoryRoom := { r with resolveTimer := false }
  if ¬ r0.status = .playing then r0
  else
    let r1 : MemoryRoom := { r0 with revealedIndices := [], resolving := false }
    if 0 < r1.turnOrder.length then
      memorySetTurnByCursor { r1 with turnCursor := (r1.turnCursor + 1) % r1.turnOrder.length }
    else { r1 with turnUserId := none }

/-- POST /api/memory/rooms. -/
def memoryCreate (hostId : UserId) (hostName : String) (cardCount : Nat) : MemoryRoom :=
  { status := .lobby
    hostUserId := some hostId
    cardCount := cardCount
    matchedCount := 0
    cards := []
    revealedIndices := []
    resolving := false
    resolveTimer := false
    turnOrder := []
    turnCursor := 0
    turnUserId := none
    winners := []
    players := [{ userId := hostId, username := hostName, online := true, score := 0 }]
    connections := [] }

/-- POST /api/memory/rooms/:code/join. -/
def memoryJoin (r : MemoryRoom) (u : UserId) (username : String) :
    Except String Unit × MemoryRoom :=
  if hasKey MemoryPlayer.userId r.players u then
    let ps := updateByKey MemoryPlayer.userId r.players u (fun p => { p with online := true })
    (.ok (), { r with players := ps })
  else if ¬ r.status = .lobby then (.error "room_not_joinable", r)
  else if 8 ≤ r.players.length then (.error "room_full", r)
  else
    let np : MemoryPlayer := { userId := u, username := username, online := true, score := 0 }
    (.ok (), { r with players := r.players ++ [np] })

/-- POST /api/memory/rooms/:code/leave.  Unlike croc, this handler realigns
turnCursor to the index of the surviving turn holder. -/
def memoryLeave (r : MemoryRoom) (u : UserId) : MemoryRoom :=
  let leavingWasTurn := r.turnUserId = some u
  let r1 : MemoryRoom :=
    { r with players := removeByKey MemoryPlayer.userId r.players u
             connections := connDel r.connections u
             turnOrder := r.turnOrder.filter (fun id => decide (¬ id = u)) }
  let r2 : MemoryRoom :=
    if r1.hostUserId = some u then
      { r1 with hostUserId := r1.players.head?.map (fun p => p.userId) }
    else r1
  let r3 : MemoryRoom := { r2 with resolveTimer := false, revealedIndices := [], resolving := false }
  if r3.status = .playing then
    if r3.turnOrder.length = 0 then
      { r3 with status := .ended, turnUserId := none, winners := [] }
    else if leavingWasTurn ∨ ¬ (∃ tu, r3.turnUserId = some tu ∧ tu ∈ r3.turnOrder) then
      memorySetTurnByCursor
        (if r3.turnOrder.length ≤ r3.turnCursor then { r3 with turnCursor := 0 } else r3)
    else
      { r3 with turnCursor := match r3.turnUserId with
                              | some tu => r3.turnOrder.indexOf tu
                              | none => 0 }
  else r3

/-- pruneMemoryRoomIfEmpty. -/
def pruneMemoryRoomIfEmpty (r : MemoryRoom) : Option MemoryRoom :=
  if 0 < r.players.length then some r else none

/-- POST /api/memory/rooms/:code/start.  The shuffled deck built by
buildMemoryDeck is random; it enters the model as the oracle `deck`. -/
def memoryStart (r : MemoryRoom) (caller : UserId) (cardCountArg : Option Int)
    (deck : List MemoryCard) : Except String Unit × MemoryRoom :=
  if ¬ r.hostUserId = some caller then (.error "host_only", r)
  else
    match clampMemoryCardCount (cardCountArg.getD (r.cardCount : Int)) with
    | none => (.error "invalid_card_count", r)
    | some cardCount =>
      if r.players.length < 1 then (.error "no_players", r)
      else
        let r1 : MemoryRoom :=
          { r with status := .playing
                   cardCount := cardCount
                   cards := deck
                   matchedCount := 0
                   revealedIndices := []
                   resolving := false
                   winners := []
                   resolveTimer := false
                   players := r.players.map (fun p => { p with score := 0 })
                   turnOrder := r.players.map (fun p => p.userId)
                   turnCursor := 0 }
        (.ok (), memorySetTurnByCursor r1)

/-- The response payloads of a successful memory pick. -/
inductive MemoryPickOut where
  | first
  | endedGame
  | matchFound
  | mismatch
deriving DecidableEq

/-- The default card read when an out-of-range revealed index is dereferenced;
unreachable through the API (the JS code would throw there). -/
def memoryDefaultCard : MemoryCard :=
  { uid := 0, countryKey := "", flag := "", nameKo := "", matched := false }

/-- POST /api/memory/rooms/:code/pick. -/
def memoryPick (r : MemoryRoom) (caller : UserId) (index : Int) :
    Except String MemoryPickOut × MemoryRoom :=
  if ¬ r.status = .playing then (.error "not_playing", r)
  else if ¬ r.turnUserId = some caller then (.error "not_your_turn", r)
  else if r.resolving then (.error "resolving", r)
  else if ¬ (0 ≤ index ∧ index < (r.cards.length : Int)) then (.error "invalid_index", r)
  else
    let i := index.toNat
    if (r.cards.getD i memoryDefaultCard).matched then (.error "already_matched", r)
    else if i ∈ r.revealedIndices then (.error "already_revealed", r)
    else
      let r1 : MemoryRoom := { r with revealedIndices := r.revealedIndices ++ [i] }
      if r1.revealedIndices.length = 1 then (.ok .first, r1)
      else
        let a := r1.revealedIndices.getD 0 0
        let b := r1.revealedIndices.getD 1 0
        let cardA := r1.cards.getD a memoryDefaultCard
        let cardB := r1.cards.getD b memoryDefaultCard
        if cardA.countryKey = cardB.countryKey then
          let cs := listModify (listModify r1.cards a (fun c => { c with matched := true }))
            b (fun c => { c with matched := true })
          let ps := updateByKey MemoryPlayer.userId r1.players caller
            (fun p => { p with score := p.score + 1 })
          let r2 : MemoryRoom :=
            { r1 with cards := cs, matchedCount := r1.matchedCount + 1,
                      revealedIndices := [], players := ps }
          let fin := memoryFinalizeIfDone r2
          if fin.1 then (.ok .endedGame, fin.2)
          else (.ok .matchFound, fin.2)
        else
          (.ok .mismatch, memoryResolveMismatchLater r1)

/-- GET /sse/memory/:code stream-open mutation. -/
def memorySseOpen (r : MemoryRoom) (u : UserId) : Except String Unit × MemoryRoom :=
  if ¬ hasKey MemoryPlayer.userId r.players u then (.error "not_in_room", r)
  else
    let ps := updateByKey MemoryPlayer.userId r.players u (fun p => { p with online := true })
    (.ok (), { r with connections := sseOpenConn r.connections u, players := ps })

/-- Memory SSE stream close. -/
def memorySseClose (r : MemoryRoom) (u : UserId) : MemoryRoom :=
  let c := sseCloseConn r.connections u
  if ¬ connHas c u then
    let ps := updateByKey MemoryPlayer.userId r.players u (fun p => { p with online := false })
    { r with connections := c, players := ps }
  else { r with connections := c }

/-- The turn invariant specialised to memory rooms. -/
def memoryTurnConsistent (r : MemoryRoom) : Prop :=
  turnConsistent r.status r.turnOrder r.turnCursor r.turnUserId

instance (r : MemoryRoom) : Decidable (memoryTurnConsistent r) := by
  unfold memoryTurnConsistent; infer_instance

/-! ## Gomoku rooms -/

inductive Stone where
  | B
  | W
deriving DecidableEq

structure GomokuPlayer where
  userId : UserId
  username : String
  online : Bool
  stone : Option Stone
deriving DecidableEq

structure GomokuRoom where
  status : Status
  hostUserId : Option UserId
  boardSize : Nat
  board : List (Option Stone)
  turnOrder : List UserId
  turnCursor : Nat
  turnUserId : Option UserId
  winnerUserId : Option UserId
  winnerUsername : Option String
  winnerStone : Option Stone
  draw : Bool
  lastMoveIndex : Option Nat
  lastMoveByUserId : Option UserId
  players : List GomokuPlayer
  connections : List (UserId × Nat)
deriving DecidableEq

/-- GOMOKU_SIZE -/
def GOMOKU_SIZE : Nat := 15

/-- gomokuSetTurnByCursor, textually identical to the croc version. -/
def gomokuSetTurnByCursor (r : GomokuRoom) : GomokuRoom :=
  if r.turnOrder.length = 0 then { r with turnUserId := none }
  else
    let cursor := r.turnCursor % r.turnOrder.length
    { r with turnCursor := cursor, turnUserId := r.turnOrder[cursor]? }

/-- One direction of the while loop in gomokuHasFive: the number of
consecutive cells holding `stone`, starting at (row,col) and stepping by
(dr,dc), staying on the board.  The walk changes row or column each step,
so a fuel of boardSize bounds it. -/
def gomokuRun (board : List (Option Stone)) (n : Nat) (stone : Stone) :
    Int → Int → Int → Int → Nat → Nat
  | _, _, _, _, 0 => 0
  | row, col, dr, dc, fuel + 1 =>
    if 0 ≤ row ∧ row < (n : Int) ∧ 0 ≤ col ∧ col < (n : Int) then
      if board.getD (row * (n : Int) + col).toNat none = some stone then
        1 + gomokuRun board n stone (row + dr) (col + dc) dr dc fuel
      else 0
    else 0

/-- gomokuHasFive: from the placed cell walk the four axes in both
directions; a total run of at least five wins. -/
def gomokuHasFive (board : List (Option Stone)) (n : Nat) (index : Nat) (stone : Stone) :
    Bool :=
  let row : Int := (index / n : Nat)
  let col : Int := (index % n : Nat)
  let dirs : List (Int × Int) := [(1, 0), (0, 1), (1, 1), (1, -1)]
  dirs.any (fun d =>
    let count := 1 + gomokuRun board n stone (row - d.1) (col - d.2) (-d.1) (-d.2) n
      + gomokuRun board n stone (row + d.1) (col + d.2) d.1 d.2 n
    decide (5 ≤ count))

/-- POST /api/gomoku/rooms. -/
def gomokuCreate (hostId : UserId) (hostName : String) : GomokuRoom :=
  { status := .lobby
    hostUserId := some hostId
    boardSize := GOMOKU_SIZE
    board := List.replicate (GOMOKU_SIZE * GOMOKU_SIZE) none
    turnOrder := []
    turnCursor := 0
    turnUserId := none
    winnerUserId := none
    winnerUsername := none
    winnerStone := none
    draw := false
    lastMoveIndex := none
    lastMoveByUserId := none
    players := [{ userId := hostId, username := hostName, online := true, stone := some .B }]
    connections := [] }

/-- POST /api/gomoku/rooms/:code/join: capacity two; the second player takes
W when B is taken, else B. -/
def gomokuJoin (r : GomokuRoom) (u : UserId) (username : String) :
    Except String Unit × GomokuRoom :=
  if hasKey GomokuPlayer.userId r.players u then
    let ps := updateByKey GomokuPlayer.userId r.players u (fun p => { p with online := true })
    (.ok (), { r with players := ps })
  else if ¬ r.status = .lobby then (.error "room_not_joinable", r)
  else if 2 ≤ r.players.length then (.error "room_full", r)
  else
    let takenB := r.players.any (fun p => p.stone = some .B)
    let np : GomokuPlayer :=
      { userId := u, username := username, online := true,
        stone := some (if takenB then .W else .B) }
    (.ok (), { r with players := r.players ++ [np] })

/-- POST /api/gomoku/rooms/:code/leave: a departure below two players during
play hands the win to the survivor. -/
def gomokuLeave (r : GomokuRoom) (u : UserId) : GomokuRoom :=
  let leavingWasTurn := r.turnUserId = some u
  let r1 : GomokuRoom :=
    { r with players := removeByKey GomokuPlayer.userId r.players u
             connections := connDel r.connections u
             turnOrder := r.turnOrder.filter (fun id => decide (¬ id = u)) }
  let r2 : GomokuRoom :=
    if r1.hostUserId = some u then
      { r1 with hostUserId := r1.players.head?.map (fun p => p.userId) }
    else r1
  if r2.status = .playing then
    if r2.players.length < 2 then
      let remain := r2.players.head?
      { r2 with status := .ended
                turnUserId := none
                draw := false
                winnerUserId := remain.map (fun p => p.userId)
                winnerUsername := remain.map (fun p => p.username)
                winnerStone := remain.bind (fun p => p.stone) }
    else if leavingWasTurn ∨ ¬ (∃ tu, r2.turnUserId = some tu ∧ tu ∈ r2.turnOrder) then
      gomokuSetTurnByCursor
        (if r2.turnOrder.length ≤ r2.turnCursor then { r2 with turnCursor := 0 } else r2)
    else
      { r2 with turnCursor := match r2.turnUserId with
                              | some tu => r2.turnOrder.indexOf tu
                              | none => 0 }
  else r2

/-- pruneGomokuRoomIfEmpty. -/
def pruneGomokuRoomIfEmpty (r : GomokuRoom) : Option GomokuRoom :=
  if 0 < r.players.length then some r else none

/-- The stone-assignment loop of the gomoku start handler: the player at
turn order position 0 gets B, the others W. -/
def gomokuAssignStones (ps : List GomokuPlayer) (ord : List UserId) : List GomokuPlayer :=
  (List.range ord.length).foldl
    (fun acc i =>
      updateByKey GomokuPlayer.userId acc (ord.getD i "")
        (fun p => { p with stone := some (if i = 0 then .B else .W) }))
    ps

/-- POST /api/gomoku/rooms/:code/start. -/
def gomokuStart (r : GomokuRoom) (caller : UserId) : Except String Unit × GomokuRoom :=
  if ¬ r.hostUserId = some caller then (.error "host_only", r)
  else if ¬ r.players.length = 2 then (.error "need_two_players", r)
  else
    let ord := (r.players.map (fun p => p.userId)).take 2
    let r1 : GomokuRoom :=
      { r with status := .playing
               board := List.replicate (r.boardSize * r.boardSize) none
               turnOrder := ord
               turnCursor := 0
               winnerUserId := none
               winnerUsername := none
               winnerStone := none
               draw := false
               lastMoveIndex := none
               lastMoveByUserId := none }
    let r2 := gomokuSetTurnByCursor r1
    (.ok (), { r2 with players := gomokuAssignStones r2.players ord })

/-- The response payload of a successful gomoku move. -/
inductive GomokuMoveOut where
  | endedWin
  | endedDraw
  | advanced
deriving DecidableEq

/-- POST /api/gomoku/rooms/:code/move. -/
def gomokuMove (r : GomokuRoom) (caller : UserId) (index : Int) :
    Except String GomokuMoveOut × GomokuRoom :=
  if ¬ r.status = .playing then (.error "not_playing", r)
  else if ¬ r.turnUserId = some caller then (.error "not_your_turn", r)
  else
    match findByKey GomokuPlayer.userId r.players caller with
    | none => (.error "player_not_ready", r)
    | some player =>
      match player.stone with
      | none => (.error "player_not_ready", r)
      | some stone =>
        if ¬ (0 ≤ index ∧ index ≤ (r.boardSize * r.boardSize - 1 : Nat)) then
          (.error "invalid_index", r)
        else
          let i := index.toNat
          if (r.board.getD i none).isSome then (.error "occupied", r)
          else
            let r1 : GomokuRoom :=
              { r with board := r.board.set i (some stone)
                       lastMoveIndex := some i
                       lastMoveByUserId := some caller }
            if gomokuHasFive r1.board r1.boardSize i stone then
              (.ok .endedWin,
               { r1 with status := .ended
                         turnUserId := none
                         draw := false
                         winnerUserId := some player.userId
                         winnerUsername := some player.username
                         winnerStone := some stone })
            else if r1.board.all (fun v => v.isSome) then
              (.ok .endedDraw,
               { r1 with status := .ended
                         turnUserId := none
                         draw := true
                         winnerUserId := none
                         winnerUsername := none
                         winnerStone := none })
            else
              (.ok .advanced, gomokuSetTurnByCursor
                { r1 with turnCursor := (r1.turnCursor + 1) % r1.turnOrder.length })

/-- GET /sse/gomoku/:code stream-open mutation. -/
def gomokuSseOpen (r : GomokuRoom) (u : UserId) : Except String Unit × GomokuRoom :=
  if ¬ hasKey GomokuPlayer.userId r.players u then (.error "not_in_room", r)
  else
    let ps := updateByKey GomokuPlayer.userId r.players u (fun p => { p with online := true })
    (.ok (), { r with connections := sseOpenConn r.connections u, players := ps })

/-- Gomoku SSE stream close. -/
def gomokuSseClose (r : GomokuRoom) (u : UserId) : GomokuRoom :=
  let c := sseCloseConn r.connections u
  if ¬ connHas c u then
    let ps := updateByKey GomokuPlayer.userId r.players u (fun p => { p with online := false })
    { r with connections := c, players := ps }
  else { r with connections := c }

/-- The turn invariant specialised to gomoku rooms. -/
def gomokuTurnConsistent (r : GomokuRoom) : Prop :=
  turnConsistent r.status r.turnOrder r.turnCursor r.turnUserId

instance (r : GomokuRoom) : Decidable (gomokuTurnConsistent r) := by
  unfold gomokuTurnConsistent; infer_instance

/-! ## Bingo rooms -/

/-- BINGO_BOT_USER_ID -/
def BINGO_BOT_USER_ID : UserId := "__bingo_bot__"

/-- BINGO_BOT_USERNAME -/
def BINGO_BOT_USERNAME : String := "COM"

structure BingoPlayer where
  userId : UserId
  username : String
  board : List (List Nat)
  online : Bool
  isBot : Bool
deriving DecidableEq

structure BingoWinner where
  userId : UserId
  username : String
  lines : Nat
deriving DecidableEq

structure BingoRoom where
  size : Nat
  targetLines : Nat
  drawTimeoutSeconds : Nat
  status : Status
  hostUserId : Option UserId
  botEnabled : Bool
  players : List BingoPlayer
  calledNumbers : List Nat
  lastNumber : Option Nat
  winners : List BingoWinner
  turnOrder : List UserId
  turnCursor : Nat
  turnUserId : Option UserId
  turnEndsAt : Option Nat
  turnTimer : Bool
  lastDrawByUserId : Option UserId
  lastDrawByUsername : Option String
  lastDrawReason : Option String
  connections : List (UserId × Nat)
deriving DecidableEq

/-- generateBoard: reshape a (shuffled) list of numbers into a row-major
size-by-size matrix; the shuffle itself is the random oracle. -/
def generateBoard (size : Nat) (nums : List Nat) : List (List Nat) :=
  (List.range size).map (fun r => (nums.drop (r * size)).take size)

/-- countCompleteLines: complete rows plus complete columns plus the two main
diagonals; a missing cell reads as 0, which is never a called number, exactly
as an undefined cell fails the Set.has test in the source. -/
def countCompleteLines (board : List (List Nat)) (called : List Nat) : Nat :=
  let size := board.length
  let cell := fun (r c : Nat) => (board.getD r []).getD c 0
  let rows := ((List.range size).filter
    (fun r => (List.range size).all (fun c => decide (cell r c ∈ called)))).length
  let cols := ((List.range size).filter
    (fun c => (List.range size).all (fun r => decide (cell r c ∈ called)))).length
  let d1 := if (List.range size).all (fun i => decide (cell i i ∈ called)) then 1 else 0
  let d2 := if (List.range size).all (fun i => decide (cell i (size - 1 - i) ∈ called)) then 1
    else 0
  rows + cols + d1 + d2

/-- evaluateWinners: every player whose line count reaches targetLines. -/
def evaluateWinners (r : BingoRoom) : List BingoWinner :=
  (r.players.filter (fun p => decide (r.targetLines ≤ countCompleteLines p.board r.calledNumbers))).map
    (fun p => BingoWinner.mk p.userId p.username (countCompleteLines p.board r.calledNumbers))

/-- setTurnByCursor (bingo): also clears turnEndsAt when the order is empty. -/
def setTurnByCursor (r : BingoRoom) : BingoRoom :=
  if r.turnOrder.length = 0 then { r with turnUserId := none, turnEndsAt := none }
  else
    let cursor := r.turnCursor % r.turnOrder.length
    { r with turnCursor := cursor, turnUserId := r.turnOrder[cursor]? }

/-- clearTurnTimer. -/
def clearTurnTimer (r : BingoRoom) : BingoRoom :=
  { r with turnTimer := false }

/-- buildTurnOrder: the players map keys in insertion order. -/
def buildTurnOrder (r : BingoRoom) : List UserId :=
  r.players.map (fun p => p.userId)

/-- countHumanPlayers. -/
def countHumanPlayers (r : BingoRoom) : Nat :=
  (r.players.filter (fun p => decide (¬ p.userId = BINGO_BOT_USER_ID))).length

/-- removeBingoBotIfPresent. -/
def removeBingoBotIfPresent (r : BingoRoom) : BingoRoom :=
  if ¬ hasKey BingoPlayer.userId r.players BINGO_BOT_USER_ID then r
  else
    let r1 : BingoRoom :=
      { r with players := removeByKey BingoPlayer.userId r.players BINGO_BOT_USER_ID
               connections := connDel r.connections BINGO_BOT_USER_ID
               turnOrder := r.turnOrder.filter (fun id => decide (¬ id = BINGO_BOT_USER_ID)) }
    if r1.turnUserId = some BINGO_BOT_USER_ID then
      { r1 with turnUserId := none, turnEndsAt := none }
    else r1

/-- ensureBingoBot: when the bot is enabled and absent, append a bot player
with a freshly generated board (the oracle `botBoard`). -/
def ensureBingoBot (r : BingoRoom) (botBoard : List (List Nat)) : BingoRoom :=
  if ¬ r.botEnabled then r
  else if hasKey BingoPlayer.userId r.players BINGO_BOT_USER_ID then r
  else
    let bot : BingoPlayer :=
      { userId := BINGO_BOT_USER_ID, username := BINGO_BOT_USERNAME,
        board := botBoard, online := true, isBot := true }
    { r with players := r.players ++ [bot] }

/-- syncBingoBotForHumans: the bot occupies a slot while at most one human
is present; otherwise it is removed. -/
def syncBingoBotForHumans (r : BingoRoom) (botBoard : List (List Nat)) : BingoRoom :=
  if ¬ r.botEnabled then removeBingoBotIfPresent r
  else if countHumanPlayers r ≤ 1 then ensureBingoBot r botBoard
  else removeBingoBotIfPresent r

/-- scheduleTurn: cancel any pending timer; on a playing room whose turn
holder is the bot, arm the 1200 ms timer; human turns get turnEndsAt null. -/
def scheduleTurn (r : BingoRoom) (now : Nat) : BingoRoom :=
  let r0 := clearTurnTimer r
  if ¬ r0.status = .playing then r0
  else
    match r0.turnUserId with
    | none => r0
    | some tu =>
      if ¬ tu = BINGO_BOT_USER_ID then { r0 with turnEndsAt := none }
      else { r0 with turnEndsAt := some (now + 1200), turnTimer := true }

/-- drawNextNumber.  The response payload is the drawn number; the early
exit when no numbers remain answers ok with a null number. -/
def drawNextNumber (r : BingoRoom) (actorUserId : UserId) (reason : String)
    (selectedNumber : Int) (now : Nat) : Except String (Option Nat) × BingoRoom :=
  if ¬ r.status = .playing then (.error "not_playing", r)
  else
    let maxN := r.size * r.size
    let remaining := (List.range' 1 maxN).filter (fun n => decide (¬ n ∈ r.calledNumbers))
    if remaining.length = 0 then
      (.ok none,
       { r with status := .ended, winners := [], turnUserId := none,
                turnEndsAt := none, turnTimer := false })
    else if ¬ (1 ≤ selectedNumber ∧ selectedNumber ≤ (maxN : Int)) then
      (.error "invalid_number", r)
    else
      let number := selectedNumber.toNat
      if number ∈ r.calledNumbers then (.error "number_already_called", r)
      else
        let r1 : BingoRoom :=
          { r with calledNumbers := r.calledNumbers ++ [number]
                   lastNumber := some number
                   lastDrawByUserId := some actorUserId
                   lastDrawByUsername :=
                     (findByKey BingoPlayer.userId r.players actorUserId).map
                       (fun p => p.username)
                   lastDrawReason := some reason }
        let ws := evaluateWinners r1
        if 0 < ws.length then
          (.ok (some number),
           { r1 with status := .ended, winners := ws, turnUserId := none,
                     turnEndsAt := none, turnTimer := false })
        else if 0 < r1.turnOrder.length then
          let r2 := setTurnByCursor { r1 with turnCursor := (r1.turnCursor + 1) % r1.turnOrder.length }
          (.ok (some number), scheduleTurn r2 now)
        else
          (.ok (some number),
           { r1 with turnUserId := none, turnEndsAt := none, turnTimer := false })

/-- clampBingoSize: integers in [5,10]. -/
def clampBingoSize (n : Int) : Option Nat :=
  if 5 ≤ n ∧ n ≤ 10 then some n.toNat else none

/-- clampTurnSeconds: integers in {3,5,7,10,15,20}. -/
def clampTurnSeconds (n : Int) : Option Nat :=
  if n = 3 ∨ n = 5 ∨ n = 7 ∨ n = 10 ∨ n = 15 ∨ n = 20 then some n.toNat else none

/-- POST /api/rooms (bingo create): botEnabled is vsComputer !== false; the
host is the sole player; no bot is added here.  The host board comes from
the shuffled-numbers oracle `nums`. -/
def bingoCreate (hostId : UserId) (hostName : String) (size : Nat) (botEnabled : Bool)
    (nums : List Nat) : BingoRoom :=
  { size := size
    targetLines := 5
    drawTimeoutSeconds := 10
    status := .lobby
    hostUserId := some hostId
    botEnabled := botEnabled
    players := [{ userId := hostId, username := hostName,
                  board := generateBoard size nums, online := true, isBot := false }]
    calledNumbers := []
    lastNumber := none
    winners := []
    turnOrder := []
    turnCursor := 0
    turnUserId := none
    turnEndsAt := none
    turnTimer := false
    lastDrawByUserId := none
    lastDrawByUsername := none
    lastDrawReason := none
    connections := [] }

/-- POST /api/rooms/:code/join: an incoming human may displace the bot, and
capacity is eight humans. -/
def bingoJoin (r : BingoRoom) (u : UserId) (username : String) (nums : List Nat) :
    Except String Unit × BingoRoom :=
  if hasKey BingoPlayer.userId r.players u then
    let ps := updateByKey BingoPlayer.userId r.players u (fun p => { p with online := true })
    (.ok (), { r with players := ps })
  else if ¬ r.status = .lobby then (.error "room_not_joinable", r)
  else
    let r1 := if r.botEnabled ∧ hasKey BingoPlayer.userId r.players BINGO_BOT_USER_ID then
      removeBingoBotIfPresent r else r
    if 8 ≤ countHumanPlayers r1 then (.error "room_full", r1)
    else
      let np : BingoPlayer :=
        { userId := u, username := username, board := generateBoard r1.size nums,
          online := true, isBot := false }
      (.ok (), { r1 with players := r1.players ++ [np] })

/-- pruneRoomIfEmpty (bingo): the room dies once no human remains, even if
the bot is still seated. -/
def pruneRoomIfEmpty (r : BingoRoom) : Option BingoRoom :=
  if r.players.any (fun p => decide (¬ p.userId = BINGO_BOT_USER_ID)) then some r else none

/-- POST /api/rooms/:code/leave. -/
def bingoLeave (r : BingoRoom) (u : UserId) (botBoard : List (List Nat)) (now : Nat) :
    BingoRoom :=
  let leavingWasTurn := r.turnUserId = some u
  let r1 : BingoRoom :=
    { r with players := removeByKey BingoPlayer.userId r.players u
             connections := connDel r.connections u
             turnOrder := r.turnOrder.filter (fun id => decide (¬ id = u)) }
  let r2 := syncBingoBotForHumans r1 botBoard
  let nextHost := (r2.players.find? (fun p => decide (¬ p.isBot = true))).map
    (fun p => p.userId)
  let r3 : BingoRoom :=
    if r2.hostUserId = some u then { r2 with hostUserId := nextHost } else r2
  if r3.status = .playing then
    let r4 : BingoRoom := { r3 with turnOrder := buildTurnOrder r3 }
    if r4.turnOrder.length = 0 then
      { r4 with status := .ended, turnUserId := none, turnEndsAt := none, turnTimer := false }
    else if leavingWasTurn then
      scheduleTurn (setTurnByCursor
        (if r4.turnOrder.length ≤ r4.turnCursor then { r4 with turnCursor := 0 } else r4)) now
    else if ¬ (∃ tu, r4.turnUserId = some tu ∧ tu ∈ r4.turnOrder) then
      scheduleTurn (setTurnByCursor
        (if r4.turnOrder.length ≤ r4.turnCursor then { r4 with turnCursor := 0 } else r4)) now
    else
      scheduleTurn { r4 with turnCursor := match r4.turnUserId with
                                           | some tu => r4.turnOrder.indexOf tu
                                           | none => 0 } now
  else r3

/-- POST /api/rooms/:code/start.  Note the bot sync runs before the
no-players check. -/
def bingoStart (r : BingoRoom) (caller : UserId) (drawTimeoutSeconds : Int)
    (botBoard : List (List Nat)) (now : Nat) : Except String Unit × BingoRoom :=
  if ¬ r.hostUserId = some caller then (.error "host_only", r)
  else
    match clampTurnSeconds drawTimeoutSeconds with
    | none => (.error "invalid_draw_timeout_seconds", r)
    | some timeout =>
      let r1 := syncBingoBotForHumans r botBoard
      if countHumanPlayers r1 < 1 then (.error "no_players", r1)
      else
        let r2 : BingoRoom :=
          { r1 with status := .playing
                    drawTimeoutSeconds := timeout
                    calledNumbers := []
                    lastNumber := none
                    winners := []
                    lastDrawByUserId := none
                    lastDrawByUsername := none
                    lastDrawReason := none
                    turnCursor := 0 }
        let r3 : BingoRoom := { r2 with turnOrder := buildTurnOrder r2 }
        (.ok (), scheduleTurn (setTurnByCursor r3) now)

/-- POST /api/rooms/:code/draw: the route-level checks, then drawNextNumber
with reason manual_pick. -/
def bingoDraw (r : BingoRoom) (caller : UserId) (number : Int) (now : Nat) :
    Except String (Option Nat) × BingoRoom :=
  if ¬ r.status = .playing then (.error "not_playing", r)
  else if ¬ hasKey BingoPlayer.userId r.players caller then (.error "not_in_room", r)
  else if ¬ r.turnUserId = some caller then (.error "not_your_turn", r)
  else drawNextNumber r caller "manual_pick" number now

/-- GET /sse/room/:code stream-open mutation. -/
def bingoSseOpen (r : BingoRoom) (u : UserId) : Except String Unit × BingoRoom :=
  if ¬ hasKey BingoPlayer.userId r.players u then (.error "not_in_room", r)
  else
    let ps := updateByKey BingoPlayer.userId r.players u (fun p => { p with online := true })
    (.ok (), { r with connections := sseOpenConn r.connections u, players := ps })

/-- Bingo SSE stream close. -/
def bingoSseClose (r : BingoRoom) (u : UserId) : BingoRoom :=
  let c := sseCloseConn r.connections u
  if ¬ connHas c u then
    let ps := updateByKey BingoPlayer.userId r.players u (fun p => { p with online := false })
    { r with connections := c, players := ps }
  else { r with connections := c }

/-- The turn invariant specialised to bingo rooms. -/
def bingoTurnConsistent (r : BingoRoom) : Prop :=
  turnConsistent r.status r.turnOrder r.turnCursor r.turnUserId

instance (r : BingoRoom) : Decidable (bingoTurnConsistent r) := by
  unfold bingoTurnConsistent; infer_instance

/-! ## Presence predicates and helper lemmas -/

/-- One-directional presence invariant on a connections map and a player
list: an entry with a positive live-connection count is marked online. -/
def presOk (conn : List (UserId × Nat)) (ps : List α) (key : α → UserId) (onl : α → Bool) :
    Prop :=
  ∀ p ∈ ps, 0 < connGetD conn (key p) → onl p = true

/-- The biconditional presence claim of the spec: online iff the connection
count is positive. -/
def presEquiv (conn : List (UserId × Nat)) (ps : List α) (key : α → UserId) (onl : α → Bool) :
    Prop :=
  ∀ p ∈ ps, onl p = true ↔ 0 < connGetD conn (key p)

def crocPresenceOk (r : CrocRoom) : Prop :=
  presOk r.connections r.players CrocPlayer.userId CrocPlayer.online

def crocPresenceEquiv (r : CrocRoom) : Prop :=
  presEquiv r.connections r.players CrocPlayer.userId CrocPlayer.online

def memoryPresenceOk (r : MemoryRoom) : Prop :=
  presOk r.connections r.players MemoryPlayer.userId MemoryPlayer.online

def memoryPresenceEquiv (r : MemoryRoom) : Prop :=
  presEquiv r.connections r.players MemoryPlayer.userId MemoryPlayer.online

def gomokuPresenceOk (r : GomokuRoom) : Prop :=
  presOk r.connections r.players GomokuPlayer.userId GomokuPlayer.online

def gomokuPresenceEquiv (r : GomokuRoom) : Prop :=
  presEquiv r.connections r.players GomokuPlayer.userId GomokuPlayer.online

def bingoPresenceOk (r : BingoRoom) : Prop :=
  presOk r.connections r.players BingoPlayer.userId BingoPlayer.online

def bingoPresenceEquiv (r : BingoRoom) : Prop :=
  presEquiv r.connections r.players BingoPlayer.userId BingoPlayer.online

instance (conn : List (UserId × Nat)) (ps : List α) (key : α → UserId) (onl : α → Bool) :
    Decidable (presOk conn ps key onl) := by
  unfold presOk; infer_instance

instance (conn : List (UserId × Nat)) (ps : List α) (key : α → UserId) (onl : α → Bool) :
    Decidable (presEquiv conn ps key onl) := by
  unfold presEquiv; infer_instance

instance (r : CrocRoom) : Decidable (crocPresenceOk r) := by
  unfold crocPresenceOk; infer_instance

instance (r : CrocRoom) : Decidable (crocPresenceEquiv r) := by
  unfold crocPresenceEquiv; infer_instance

instance (r : MemoryRoom) : Decidable (memoryPresenceOk r) := by
  unfold memoryPresenceOk; infer_instance

instance (r : MemoryRoom) : Decidable (memoryPresenceEquiv r) := by
  unfold memoryPresenceEquiv; infer_instance

instance (r : GomokuRoom) : Decidable (gomokuPresenceOk r) := by
  unfold gomokuPresenceOk; infer_instance

instance (r : GomokuRoom) : Decidable (gomokuPresenceEquiv r) := by
  unfold gomokuPresenceEquiv; infer_instance

instance (r : BingoRoom) : Decidable (bingoPresenceOk r) := by
  unfold bingoPresenceOk; infer_instance

instance (r : BingoRoom) : Decidable (bingoPresenceEquiv r) := by
  unfold bingoPresenceEquiv; infer_instance

theorem connGet_cons (e : UserId × Nat) (rest : List (UserId × Nat)) (v : UserId) :
    connGet (e :: rest) v = if e.1 = v then some e.2 else connGet rest v := by
  unfold connGet
  by_cases h : e.1 = v <;> simp [List.find?, h]

theorem connDel_cons (e : UserId × Nat) (rest : List (UserId × Nat)) (u : UserId) :
    connDel (e :: rest) u = if e.1 = u then connDel rest u else e :: connDel rest u := by
  unfold connDel
  by_cases h : e.1 = u <;> simp [List.filter, h]

theorem connGet_connDel (c : List (UserId × Nat)) (u v : UserId) :
    connGet (connDel c u) v = if v = u then none else connGet c v := by
  induction c with
  | nil => by_cases h : v = u <;> simp [connDel, connGet, h]
  | cons e rest ih =>
    rw [connDel_cons]
    by_cases he : e.1 = u
    · rw [if_pos he, ih]
      by_cases h : v = u
      · simp [h]
      · rw [if_neg h, if_neg h, connGet_cons, if_neg]
        intro hev
        exact h (by rw [← hev, he])
    · rw [if_neg he, connGet_cons, connGet_cons]
      by_cases hv : e.1 = v
      · rw [if_pos hv, if_pos hv, if_neg]
        intro h
        exact he (by rw [hv, h])
      · rw [if_neg hv, if_neg hv, ih]

theorem connGetD_connDel (c : List (UserId × Nat)) (u v : UserId) :
    connGetD (connDel c u) v = if v = u then 0 else connGetD c v := by
  unfold connGetD
  rw [connGet_connDel]
  by_cases h : v = u <;> simp [h]

theorem connGet_map_overwrite (c : List (UserId × Nat)) (u v : UserId) (n : Nat) :
    connGet (c.map (fun e => if e.1 = u then (e.1, n) else e)) v =
      (connGet c v).map (fun m => if v = u then n else m) := by
  induction c with
  | nil => rfl
  | cons e rest ih =>
    rw [List.map_cons, connGet_cons, connGet_cons]
    by_cases he : e.1 = u
    · by_cases hv : e.1 = v
      · have huv : v = u := by rw [← hv, he]
        simp [he, hv, huv]
      · simp only [if_pos he]
        rw [if_neg hv, if_neg hv, ih]
    · by_cases hv : e.1 = v
      · have huv : ¬ v = u := by
          intro h
          exact he (by rw [hv, h])
        simp [he, hv, huv]
      · simp only [if_neg he]
        rw [if_neg hv, if_neg hv, ih]

theorem connGet_connSet (c : List (UserId × Nat)) (u v : UserId) (n : Nat) :
    connGet (connSet c u n) v = if v = u then some n else connGet c v := by
  unfold connSet
  by_cases hh : connHas c u = true
  · rw [if_pos hh, connGet_map_overwrite]
    by_cases h : v = u
    · subst h
      rcases Option.isSome_iff_exists.mp hh with ⟨m, hm⟩
      rw [hm]
      simp
    · simp [h]
  · rw [if_neg hh]
    have hget : connGet c u = none := by
      unfold connHas at hh
      exact Option.not_isSome_iff_eq_none.mp (by simpa using hh)
    unfold connGet at hget ⊢
    rw [List.find?_append]
    by_cases h : v = u
    · subst h
      have hfnone : List.find? (fun e => decide (e.1 = v)) c = none := by
        rcases Option.map_eq_none.mp hget with h2
        exact h2
      rw [hfnone]
      simp [List.find?]
    · have hfind : List.find? (fun e => decide (e.1 = v)) [(u, n)] = none := by
        simp [List.find?, Ne.symm h]
      rw [hfind]
      by_cases h2 : (List.find? (fun e => decide (e.1 = v)) c).isSome
      · rcases Option.isSome_iff_exists.mp h2 with ⟨m, hm⟩
        rw [hm]
        simp [h]
      · rw [Option.not_isSome_iff_eq_none.mp h2]
        simp [h]

theorem connGetD_connSet (c : List (UserId × Nat)) (u v : UserId) (n : Nat) :
    connGetD (connSet c u n) v = if v = u then n else connGetD c v := by
  unfold connGetD
  rw [connGet_connSet]
  by_cases h : v = u <;> simp [h]

theorem mem_updateByKey {key : α → UserId} {xs : List α} {u : UserId} {f : α → α} (p : α)
    (hp : p ∈ updateByKey key xs u f) : ∃ q ∈ xs, p = if key q = u then f q else q := by
  unfold updateByKey at hp
  rcases List.mem_map.mp hp with ⟨q, hq, hqe⟩
  exact ⟨q, hq, hqe.symm⟩

theorem mem_removeByKey {key : α → UserId} {xs : List α} {u : UserId} (p : α)
    (hp : p ∈ removeByKey key xs u) : p ∈ xs :=
  (List.mem_filter.mp hp).1

theorem presOk_updateByKey {conn : List (UserId × Nat)} {ps : List α} {key : α → UserId}
    {onl : α → Bool} (h : presOk conn ps key onl) (u : UserId) (f : α → α)
    (hf : ∀ q, key (f q) = key q ∧ (onl (f q) = true ∨ onl (f q) = onl q)) :
    presOk conn (updateByKey key ps u f) key onl := by
  intro p hp hc
  rcases mem_updateByKey p hp with ⟨q, hq, rfl⟩
  by_cases hk : key q = u
  · simp only [hk, if_true] at hc ⊢
    rcases (hf q).2 with h1 | h1
    · exact h1
    · rw [h1]
      exact h q hq (by rwa [(hf q).1] at hc)
  · simp only [hk, if_false] at hc ⊢
    exact h q hq hc

theorem presOk_removeByKey {conn : List (UserId × Nat)} {ps : List α} {key : α → UserId}
    {onl : α → Bool} (h : presOk conn ps key onl) (u : UserId) :
    presOk conn (removeByKey key ps u) key onl := by
  intro p hp hc
  exact h p (mem_removeByKey p hp) hc

theorem presOk_connDel {conn : List (UserId × Nat)} {ps : List α} {key : α → UserId}
    {onl : α → Bool} (h : presOk conn ps key onl) (u : UserId) :
    presOk (connDel conn u) ps key onl := by
  intro p hp hc
  rw [connGetD_connDel] at hc
  by_cases hk : key p = u
  · simp [hk] at hc
  · simp only [hk, if_false] at hc
    exact h p hp hc

theorem presOk_append {conn : List (UserId × Nat)} {ps : List α} {key : α → UserId}
    {onl : α → Bool} (h : presOk conn ps key onl) {np : α} (hnp : onl np = true) :
    presOk conn (ps ++ [np]) key onl := by
  intro p hp hc
  rcases List.mem_append.mp hp with h1 | h1
  · exact h p h1 hc
  · rcases List.mem_singleton.mp h1 with rfl
    exact hnp

/-! ## Concrete rooms used as evidence -/

/-- A croc game reached through the public API: alice creates, bob and carol
join, alice starts (8 teeth per jaw, trap on 16), alice picks tooth 1 (safe,
turn passes to bob at cursor 1), then alice leaves without holding the turn. -/
def c1Room : CrocRoom :=
  let r0 := crocCreate "A" "alice"
  let r1 := (crocJoin r0 "B" "bob").2
  let r2 := (crocJoin r1 "C" "carol").2
  let r3 := (crocStart r2 "A" 8 16).2
  let r4 := (crocPick r3 "A" 1).2
  crocLeave r4 "A"

/-- C1: the claim is that after every completed operation (a croc leave by a
player who did not hold the turn included) turnUserId equals
turnOrder[turnCursor mod length] while playing.  The croc leave handler does
not realign turnCursor when a non-turn-holder leaves, so in the room above
(playing, turn held by bob) alice leaving shrinks turnOrder to [bob, carol]
while turnCursor stays 1: turnOrder[1] is carol, yet turnUserId is still bob,
so the invariant is violated. -/
theorem c1_croc_leave_turn_cursor_desync :
    c1Room.status = .playing ∧
    c1Room.turnUserId = some "B" ∧
    c1Room.turnOrder = ["B", "C"] ∧
    c1Room.turnCursor = 1 ∧
    c1Room.turnOrder[c1Room.turnCursor % c1Room.turnOrder.length]? = some "C" ∧
    ¬ crocTurnConsistent c1Room := by
  decide

/-- A bingo room fresh from its create call (5 by 5, vsComputer true). -/
def c2Room : BingoRoom :=
  bingoCreate "A" "alice" 5 true (List.range' 1 25)

/-- A placeholder bingo player used only as the default of list lookups in
concrete statements. -/
def bingoDefaultPlayer : BingoPlayer :=
  { userId := "", username := "", board := [], online := false, isBot := false }

/-- C2 counterexample: immediately after create, the host player is marked
online although the room has no connection entry for the host, so
online = (connections[userId] > 0) fails for that player. -/
theorem c2_counterexample_create_online_without_connection :
    ((c2Room.players.getD 0 bingoDefaultPlayer).online = true) ∧
    connGetD c2Room.connections "A" = 0 ∧
    ¬ bingoPresenceEquiv c2Room := by
  decide

/-- A croc game over: alice and bob, trap tooth 3, alice picks it and loses. -/
def c3EndedRoom : CrocRoom :=
  let r0 := crocCreate "A" "alice"
  let r1 := (crocJoin r0 "B" "bob").2
  let r2 := (crocStart r1 "A" 8 3).2
  (crocPick r2 "A" 3).2

/-- C3 counterexample: start does not check the current status, so calling
start on the ended room above succeeds and moves it back to playing — the
claimed impossibility of an ended-to-playing transition fails. -/
theorem c3_counterexample_restart_ended_room :
    c3EndedRoom.status = .ended ∧
    (crocStart c3EndedRoom "A" 10 5).1 = .ok () ∧
    (crocStart c3EndedRoom "A" 10 5).2.status = .playing := by
  decide

/-- A playing bingo room in which every number but 25 has been called and no
player can reach the target (the player list is empty, so no one ever reaches
targetLines; any player with a fully-called valid board would hold at least
2*size+2 = 12 complete lines, so this situation requires no winners). -/
def c5Room : BingoRoom :=
  { size := 5, targetLines := 5, drawTimeoutSeconds := 10, status := .playing,
    hostUserId := some "A", botEnabled := false, players := [],
    calledNumbers := List.range' 1 24, lastNumber := none, winners := [],
    turnOrder := ["A"], turnCursor := 0, turnUserId := some "A",
    turnEndsAt := none, turnTimer := false, lastDrawByUserId := none,
    lastDrawByUsername := none, lastDrawReason := none, connections := [] }

/-- C5 counterexample: drawing 25 in the room above calls the last number and
leaves no player at targetLines, yet the room keeps playing with an empty
winners list — the game does not end at that draw.  Only the next draw
attempt hits the no-numbers-remain early exit and ends the game. -/
theorem c5_counterexample_exhausting_draw_does_not_end :
    (drawNextNumber c5Room "A" "manual_pick" 25 0).1 = .ok (some 25) ∧
    ((List.range' 1 25).filter
      (fun n => decide (¬ n ∈ (drawNextNumber c5Room "A" "manual_pick" 25 0).2.calledNumbers))) = [] ∧
    evaluateWinners (drawNextNumber c5Room "A" "manual_pick" 25 0).2 = [] ∧
    (drawNextNumber c5Room "A" "manual_pick" 25 0).2.status = .playing ∧
    (drawNextNumber c5Room "A" "manual_pick" 25 0).2.winners = [] := by
  decide

/-- C6 counterexample: a create call with vsComputer = true yields a room
with botEnabled set whose only player is the host — the bot has not joined. -/
theorem c6_counterexample_create_has_no_bot :
    c2Room.botEnabled = true ∧
    countHumanPlayers c2Room ≤ 1 ∧
    c2Room.players.length = 1 ∧
    hasKey BingoPlayer.userId c2Room.players BINGO_BOT_USER_ID = false := by
  decide

/-! ## Frame lemmas for the scheduler helpers -/

@[simp]
theorem crocSetTurnByCursor_status (r : CrocRoom) :
    (crocSetTurnByCursor r).status = r.status := by
  unfold crocSetTurnByCursor; split <;> rfl

@[simp]
theorem crocSetTurnByCursor_players (r : CrocRoom) :
    (crocSetTurnByCursor r).players = r.players := by
  unfold crocSetTurnByCursor; split <;> rfl

@[simp]
theorem crocSetTurnByCursor_connections (r : CrocRoom) :
    (crocSetTurnByCursor r).connections = r.connections := by
  unfold crocSetTurnByCursor; split <;> rfl

@[simp]
theorem memorySetTurnByCursor_status (r : MemoryRoom) :
    (memorySetTurnByCursor r).status = r.status := by
  unfold memorySetTurnByCursor; split <;> rfl

@[simp]
theorem memorySetTurnByCursor_players (r : MemoryRoom) :
    (memorySetTurnByCursor r).players = r.players := by
  unfold memorySetTurnByCursor; split <;> rfl

@[simp]
theorem memorySetTurnByCursor_connections (r : MemoryRoom) :
    (memorySetTurnByCursor r).connections = r.connections := by
  unfold memorySetTurnByCursor; split <;> rfl

@[simp]
theorem gomokuSetTurnByCursor_status (r : GomokuRoom) :
    (gomokuSetTurnByCursor r).status = r.status := by
  unfold gomokuSetTurnByCursor; split <;> rfl

@[simp]
theorem gomokuSetTurnByCursor_players (r : GomokuRoom) :
    (gomokuSetTurnByCursor r).players = r.players := by
  unfold gomokuSetTurnByCursor; split <;> rfl

@[simp]
theorem gomokuSetTurnByCursor_connections (r : GomokuRoom) :
    (gomokuSetTurnByCursor r).connections = r.connections := by
  unfold gomokuSetTurnByCursor; split <;> rfl

@[simp]
theorem setTurnByCursor_status (r : BingoRoom) :
    (setTurnByCursor r).status = r.status := by
  unfold setTurnByCursor; split <;> rfl

@[simp]
theorem setTurnByCursor_players (r : BingoRoom) :
    (setTurnByCursor r).players = r.players := by
  unfold setTurnByCursor; split <;> rfl

@[simp]
theorem setTurnByCursor_connections (r : BingoRoom) :
    (setTurnByCursor r).connections = r.connections := by
  unfold setTurnByCursor; split <;> rfl

@[simp]
theorem scheduleTurn_status (r : BingoRoom) (now : Nat) :
    (scheduleTurn r now).status = r.status := by
  unfold scheduleTurn clearTurnTimer
  dsimp only
  split
  · rfl
  · split <;> [rfl; split <;> rfl]

@[simp]
theorem scheduleTurn_players (r : BingoRoom) (now : Nat) :
    (scheduleTurn r now).players = r.players := by
  unfold scheduleTurn clearTurnTimer
  dsimp only
  split
  · rfl
  · split <;> [rfl; split <;> rfl]

@[simp]
theorem scheduleTurn_connections (r : BingoRoom) (now : Nat) :
    (scheduleTurn r now).connections = r.connections := by
  unfold scheduleTurn clearTurnTimer
  dsimp only
  split
  · rfl
  · split <;> [rfl; split <;> rfl]

@[simp]
theorem removeBingoBotIfPresent_status (r : BingoRoom) :
    (removeBingoBotIfPresent r).status = r.status := by
  unfold removeBingoBotIfPresent
  dsimp only
  split
  · rfl
  · split <;> rfl

@[simp]
theorem ensureBingoBot_status (r : BingoRoom) (b : List (List Nat)) :
    (ensureBingoBot r b).status = r.status := by
  unfold ensureBingoBot
  dsimp only
  split
  · rfl
  · split <;> rfl

@[simp]
theorem syncBingoBotForHumans_status (r : BingoRoom) (b : List (List Nat)) :
    (syncBingoBotForHumans r b).status = r.status := by
  unfold syncBingoBotForHumans
  split
  · simp
  · split <;> simp

/-- A found entry has the looked-up key. -/
theorem findByKey_key {key : α → UserId} {xs : List α} {u : UserId} {p : α}
    (h : findByKey key xs u = some p) : key p = u := by
  unfold findByKey at h
  simpa using List.find?_some h

/-- C7: in a playing gomoku room, a legal move by the turn holder with stone
s at index i wins (status ended, winner and stone recorded for the mover) if
and only if one of the four axes through the placed cell carries at least
five contiguous stones of s (the gomokuHasFive walk on the updated board);
with no five and a full board the move ends the game as a draw with no
winner; otherwise the turn passes to the other of the two turn-order
entries. -/
theorem c7_gomoku_move_win_draw_advance (r : GomokuRoom) (caller : UserId) (index : Int)
    (player : GomokuPlayer) (stone : Stone)
    (hs : r.status = .playing)
    (ht : r.turnUserId = some caller)
    (hp : findByKey GomokuPlayer.userId r.players caller = some player)
    (hst : player.stone = some stone)
    (hi : 0 ≤ index ∧ index ≤ (r.boardSize * r.boardSize - 1 : Nat))
    (hempty : (r.board.getD index.toNat none).isSome = false)
    (hord : r.turnOrder.length = 2)
    (hnd : r.turnOrder.Nodup)
    (hcur : r.turnOrder[r.turnCursor % 2]? = some caller) :
    ((gomokuMove r caller index).1 = .ok .endedWin ↔
        gomokuHasFive (r.board.set index.toNat (some stone)) r.boardSize index.toNat stone
          = true) ∧
    (gomokuHasFive (r.board.set index.toNat (some stone)) r.boardSize index.toNat stone
        = true →
      (gomokuMove r caller index).2.status = .ended ∧
      (gomokuMove r caller index).2.winnerUserId = some caller ∧
      (gomokuMove r caller index).2.winnerStone = some stone ∧
      (gomokuMove r caller index).2.draw = false) ∧
    (gomokuHasFive (r.board.set index.toNat (some stone)) r.boardSize index.toNat stone
        = false →
      ((r.board.set index.toNat (some stone)).all (fun v => v.isSome) = true →
        (gomokuMove r caller index).1 = .ok .endedDraw ∧
        (gomokuMove r caller index).2.status = .ended ∧
        (gomokuMove r caller index).2.draw = true ∧
        (gomokuMove r caller index).2.winnerUserId = none ∧
        (gomokuMove r caller index).2.winnerStone = none) ∧
      ((r.board.set index.toNat (some stone)).all (fun v => v.isSome) = false →
        (gomokuMove r caller index).1 = .ok .advanced ∧
        (gomokuMove r caller index).2.status = .playing ∧
        (gomokuMove r caller index).2.turnUserId
          = r.turnOrder[(r.turnCursor + 1) % 2]? ∧
        ¬ (gomokuMove r caller index).2.turnUserId = some caller)) := by
  have hkey : player.userId = caller := findByKey_key hp
  have hmain : gomokuMove r caller index =
      (let i := index.toNat
       let r1 : GomokuRoom :=
         { r with board := r.board.set i (some stone), lastMoveIndex := some i,
                  lastMoveByUserId := some caller }
       if gomokuHasFive r1.board r1.boardSize i stone then
         (.ok .endedWin,
          { r1 with status := .ended, turnUserId := none, draw := false,
                    winnerUserId := some player.userId,
                    winnerUsername := some player.username,
                    winnerStone := some stone })
       else if r1.board.all (fun v => v.isSome) then
         (.ok .endedDraw,
          { r1 with status := .ended, turnUserId := none, draw := true,
                    winnerUserId := none, winnerUsername := none, winnerStone := none })
       else
         (.ok .advanced, gomokuSetTurnByCursor
           { r1 with turnCursor := (r1.turnCursor + 1) % r1.turnOrder.length })) := by
    unfold gomokuMove
    rw [if_neg (show ¬ ¬ r.status = .playing from by simp [hs])]
    rw [if_neg (show ¬ ¬ r.turnUserId = some caller from by simp [ht])]
    rw [hp]
    dsimp only
    rw [hst]
    dsimp only
    rw [if_neg (show ¬ ¬ (0 ≤ index ∧ index ≤ (r.boardSize * r.boardSize - 1 : Nat)) from
      by simp only [not_not]; exact hi)]
    rw [if_neg (show ¬ (r.board.getD index.toNat none).isSome = true from
      by simp only [hempty]; decide)]
  rw [hmain]
  dsimp only
  by_cases hfive : gomokuHasFive (r.board.set index.toNat (some stone)) r.boardSize
      index.toNat stone = true
  · rw [if_pos hfive]
    refine ⟨⟨fun _ => hfive, fun _ => rfl⟩, fun _ => ⟨rfl, by rw [hkey], rfl, rfl⟩,
      fun hcontra => absurd hfive (by simp [hcontra])⟩
  · have hfive2 : gomokuHasFive (r.board.set index.toNat (some stone)) r.boardSize
        index.toNat stone = false := by
      simpa using hfive
    rw [if_neg hfive]
    by_cases hfull : (r.board.set index.toNat (some stone)).all (fun v => v.isSome) = true
    · rw [if_pos hfull]
      refine ⟨⟨fun hcontra => by simp at hcontra, fun hcontra => absurd hcontra hfive⟩,
        fun hcontra => absurd hcontra hfive, fun _ => ⟨fun _ => ⟨rfl, rfl, rfl, rfl, rfl⟩,
        fun hcontra => absurd hfull (by simp [hcontra])⟩⟩
    · rw [if_neg hfull]
      refine ⟨⟨fun hcontra => by simp at hcontra, fun hcontra => absurd hcontra hfive⟩,
        fun hcontra => absurd hcontra hfive, fun _ => ⟨fun hcontra => absurd hcontra hfull,
        fun _ => ⟨rfl, by simp [hs], ?_, ?_⟩⟩⟩
      · unfold gomokuSetTurnByCursor
        have h2 : ((r.turnCursor + 1) % 2) % 2 = (r.turnCursor + 1) % 2 := by simp
        simp only [hord]
        rw [if_neg (by omega)]
        simp only [hord, h2]
      · unfold gomokuSetTurnByCursor
        rcases List.length_eq_two.mp hord with ⟨x, y, hxy⟩
        have hxney : ¬ x = y := by
          rw [hxy] at hnd
          simpa using List.nodup_cons.mp hnd |>.1
        rcases Nat.mod_two_eq_zero_or_one r.turnCursor with hpar | hpar
        · have hx : x = caller := by
            rw [hxy, hpar] at hcur
            simpa using hcur
          have hnew : (r.turnCursor + 1) % 2 = 1 := by omega
          simp only [hxy, hord]
          rw [if_neg (by simp [hxy])]
          simp only [hxy, List.length_cons, List.length_nil]
          rw [show (0 + 1 + 1 : Nat) = 2 from rfl]
          simp only [hnew]
          intro hcontra
          simp at hcontra
          exact hxney (by rw [hx, ← hcontra])
        · have hy : y = caller := by
            rw [hxy, hpar] at hcur
            simpa using hcur
          have hnew : (r.turnCursor + 1) % 2 = 0 := by omega
          simp only [hxy, hord]
          rw [if_neg (by simp [hxy])]
          simp only [hxy, List.length_cons, List.length_nil]
          rw [show (0 + 1 + 1 : Nat) = 2 from rfl]
          simp only [hnew]
          intro hcontra
          simp at hcontra
          exact hxney (by rw [hy, ← hcontra])

/-! ## Presence preservation lemmas -/

theorem presOk_map {conn : List (UserId × Nat)} {ps : List α} {key : α → UserId}
    {onl : α → Bool} (h : presOk conn ps key onl) (f : α → α)
    (hf : ∀ q, key (f q) = key q ∧ onl (f q) = onl q) :
    presOk conn (ps.map f) key onl := by
  intro p hp hc
  rcases List.mem_map.mp hp with ⟨q, hq, rfl⟩
  rw [(hf q).2]
  exact h q hq (by rwa [(hf q).1] at hc)

theorem connGetD_zero_of_not_has (c : List (UserId × Nat)) (v : UserId)
    (h : ¬ connHas c v = true) : connGetD c v = 0 := by
  cases hcv : connGet c v with
  | none =>
    unfold connGetD
    rw [hcv]
    rfl
  | some m =>
    exact absurd (show connHas c v = true by unfold connHas; rw [hcv]; rfl) h

theorem connGetD_sseClose_ne (c : List (UserId × Nat)) (u v : UserId) (hv : ¬ v = u) :
    connGetD (sseCloseConn c u) v = connGetD c v := by
  unfold sseCloseConn
  dsimp only
  split
  · rw [connGetD_connDel, if_neg hv]
  · rw [connGetD_connSet, if_neg hv]

theorem connGetD_sseClose_le (c : List (UserId × Nat)) (u : UserId) :
    connGetD (sseCloseConn c u) u ≤ connGetD c u := by
  by_cases h : connGetD c u - 1 = 0
  · have heq : sseCloseConn c u = connDel c u := by
      unfold sseCloseConn
      dsimp only
      rw [if_pos h]
    rw [heq, connGetD_connDel]
    simp
  · have heq : sseCloseConn c u = connSet c u (connGetD c u - 1) := by
      unfold sseCloseConn
      dsimp only
      rw [if_neg h]
    rw [heq, connGetD_connSet, if_pos rfl]
    omega

theorem presOk_update_offline {conn : List (UserId × Nat)} {ps : List α} {key : α → UserId}
    {onl : α → Bool} (u : UserId) (h : presOk conn ps key onl)
    (hzero : connGetD conn u = 0) (f : α → α) (hf : ∀ q, key (f q) = key q) :
    presOk conn (updateByKey key ps u f) key onl := by
  intro p hp hc
  rcases mem_updateByKey p hp with ⟨q, hq, rfl⟩
  by_cases hk : key q = u
  · rw [if_pos hk] at hc ⊢
    rw [hf q, hk, hzero] at hc
    omega
  · rw [if_neg hk] at hc ⊢
    exact h q hq hc

theorem presOk_sseOpenConn {conn : List (UserId × Nat)} {ps : List α} {key : α → UserId}
    {onl : α → Bool} (u : UserId) (h : presOk conn ps key onl)
    (f : α → α) (hf : ∀ q, key (f q) = key q ∧ onl (f q) = true) :
    presOk (sseOpenConn conn u) (updateByKey key ps u f) key onl := by
  intro p hp hc
  rcases mem_updateByKey p hp with ⟨q, hq, rfl⟩
  by_cases hk : key q = u
  · rw [if_pos hk]
    exact (hf q).2
  · rw [if_neg hk] at hc ⊢
    unfold sseOpenConn at hc
    rw [connGetD_connSet] at hc
    rw [if_neg hk] at hc
    exact h q hq hc

theorem presOk_sseCloseConn {conn : List (UserId × Nat)} {ps : List α} {key : α → UserId}
    {onl : α → Bool} (u : UserId) (h : presOk conn ps key onl) :
    presOk (sseCloseConn conn u) ps key onl := by
  intro p hp hc
  by_cases hk : key p = u
  · apply h p hp
    rw [hk] at hc
    rw [hk]
    exact Nat.lt_of_lt_of_le hc (connGetD_sseClose_le conn u)
  · rw [connGetD_sseClose_ne conn u (key p) hk] at hc
    exact h p hp hc

theorem crocCreate_presOk (hostId : UserId) (hostName : String) :
    crocPresenceOk (crocCreate hostId hostName) := by
  intro p hp hc
  simp [crocCreate] at hp
  simp [hp]

theorem crocJoin_presOk (r : CrocRoom) (u : UserId) (un : String)
    (h : crocPresenceOk r) : crocPresenceOk (crocJoin r u un).2 := by
  unfold crocJoin
  dsimp only
  repeat' split
  all_goals first
    | exact h
    | exact presOk_updateByKey h u _ (fun q => ⟨rfl, Or.inl rfl⟩)
    | exact presOk_append h rfl

theorem crocPresenceOk_setTurn (r : CrocRoom) (h : crocPresenceOk r) :
    crocPresenceOk (crocSetTurnByCursor r) := by
  unfold crocPresenceOk at h ⊢
  rw [crocSetTurnByCursor_players, crocSetTurnByCursor_connections]
  exact h

theorem crocLeave_presOk (r : CrocRoom) (u : UserId)
    (h : crocPresenceOk r) : crocPresenceOk (crocLeave r u) := by
  have hbase : presOk (connDel r.connections u)
      (removeByKey CrocPlayer.userId r.players u) CrocPlayer.userId CrocPlayer.online :=
    presOk_connDel (presOk_removeByKey h u) u
  unfold crocLeave
  dsimp only
  repeat' split
  all_goals first
    | exact hbase
    | exact crocPresenceOk_setTurn _ hbase

theorem crocStart_presOk (r : CrocRoom) (caller : UserId) (t : Int) (trap : Nat)
    (h : crocPresenceOk r) : crocPresenceOk (crocStart r caller t trap).2 := by
  unfold crocStart
  dsimp only
  repeat' split
  all_goals first
    | exact h
    | exact crocPresenceOk_setTurn _ (presOk_map h _ (fun q => ⟨rfl, rfl⟩))

theorem crocPick_presOk (r : CrocRoom) (caller : UserId) (tooth : Int)
    (h : crocPresenceOk r) : crocPresenceOk (crocPick r caller tooth).2 := by
  unfold crocPick
  dsimp only
  repeat' split
  all_goals first
    | exact h
    | exact presOk_updateByKey h _ _ (fun q => ⟨rfl, Or.inr rfl⟩)
    | exact crocPresenceOk_setTurn _ h

theorem crocSseOpen_presOk (r : CrocRoom) (u : UserId)
    (h : crocPresenceOk r) : crocPresenceOk (crocSseOpen r u).2 := by
  unfold crocSseOpen
  split
  · exact h
  · exact presOk_sseOpenConn u h _ (fun q => ⟨rfl, rfl⟩)

theorem crocSseClose_presOk (r : CrocRoom) (u : UserId)
    (h : crocPresenceOk r) : crocPresenceOk (crocSseClose r u) := by
  unfold crocSseClose
  dsimp only
  split
  · rename_i hnot
    exact presOk_update_offline u (presOk_sseCloseConn u h)
      (connGetD_zero_of_not_has _ u hnot) _ (fun q => rfl)
  · exact presOk_sseCloseConn u h

theorem memoryPresenceOk_setTurn (r : MemoryRoom) (h : memoryPresenceOk r) :
    memoryPresenceOk (memorySetTurnByCursor r) := by
  unfold memoryPresenceOk at h ⊢
  rw [memorySetTurnByCursor_players, memorySetTurnByCursor_connections]
  exact h

theorem memoryFinalize_players (r : MemoryRoom) :
    ((memoryFinalizeIfDone r).2).players = r.players := by
  unfold memoryFinalizeIfDone
  dsimp only
  split <;> rfl

theorem memoryFinalize_connections (r : MemoryRoom) :
    ((memoryFinalizeIfDone r).2).connections = r.connections := by
  unfold memoryFinalizeIfDone
  dsimp only
  split <;> rfl

theorem memoryPresenceOk_finalize (r : MemoryRoom) (h : memoryPresenceOk r) :
    memoryPresenceOk (memoryFinalizeIfDone r).2 := by
  unfold memoryPresenceOk at h ⊢
  rw [memoryFinalize_players, memoryFinalize_connections]
  exact h

theorem memoryCreate_presOk (hostId : UserId) (hostName : String) (cc : Nat) :
    memoryPresenceOk (memoryCreate hostId hostName cc) := by
  intro p hp hc
  simp [memoryCreate] at hp
  simp [hp]

theorem memoryJoin_presOk (r : MemoryRoom) (u : UserId) (un : String)
    (h : memoryPresenceOk r) : memoryPresenceOk (memoryJoin r u un).2 := by
  unfold memoryJoin
  dsimp only
  repeat' split
  all_goals first
    | exact h
    | exact presOk_updateByKey h u _ (fun q => ⟨rfl, Or.inl rfl⟩)
    | exact presOk_append h rfl

theorem memoryLeave_presOk (r : MemoryRoom) (u : UserId)
    (h : memoryPresenceOk r) : memoryPresenceOk (memoryLeave r u) := by
  have hbase : presOk (connDel r.connections u)
      (removeByKey MemoryPlayer.userId r.players u) MemoryPlayer.userId MemoryPlayer.online :=
    presOk_connDel (presOk_removeByKey h u) u
  unfold memoryLeave
  dsimp only
  repeat' split
  all_goals first
    | exact hbase
    | exact memoryPresenceOk_setTurn _ hbase

theorem memoryStart_presOk (r : MemoryRoom) (caller : UserId) (cc : Option Int)
    (deck : List MemoryCard) (h : memoryPresenceOk r) :
    memoryPresenceOk (memoryStart r caller cc deck).2 := by
  unfold memoryStart
  dsimp only
  repeat' split
  all_goals first
    | exact h
    | exact memoryPresenceOk_setTurn _ (presOk_map h _ (fun q => ⟨rfl, rfl⟩))

theorem memoryPick_presOk (r : MemoryRoom) (caller : UserId) (index : Int)
    (h : memoryPresenceOk r) : memoryPresenceOk (memoryPick r caller index).2 := by
  unfold memoryPick memoryResolveMismatchLater
  repeat' split
  all_goals try exact h
  all_goals dsimp only
  all_goals repeat' split
  all_goals first
    | exact h
    | (apply memoryPresenceOk_finalize
       exact presOk_updateByKey h _ _ (fun q => ⟨rfl, Or.inr rfl⟩))

theorem memoryResolveTick_presOk (r : MemoryRoom) (h : memoryPresenceOk r) :
    memoryPresenceOk (memoryResolveTick r) := by
  unfold memoryResolveTick
  dsimp only
  repeat' split
  all_goals first
    | exact h
    | exact memoryPresenceOk_setTurn _ h

theorem memorySseOpen_presOk (r : MemoryRoom) (u : UserId)
    (h : memoryPresenceOk r) : memoryPresenceOk (memorySseOpen r u).2 := by
  unfold memorySseOpen
  dsimp only
  repeat' split
  all_goals first
    | exact h
    | exact presOk_sseOpenConn u h _ (fun q => ⟨rfl, rfl⟩)

theorem memorySseClose_presOk (r : MemoryRoom) (u : UserId)
    (h : memoryPresenceOk r) : memoryPresenceOk (memorySseClose r u) := by
  unfold memorySseClose
  dsimp only
  split
  · rename_i hnot
    exact presOk_update_offline u (presOk_sseCloseConn u h)
      (connGetD_zero_of_not_has _ u hnot) _ (fun q => rfl)
  · exact presOk_sseCloseConn u h

theorem gomokuPresenceOk_setTurn (r : GomokuRoom) (h : gomokuPresenceOk r) :
    gomokuPresenceOk (gomokuSetTurnByCursor r) := by
  unfold gomokuPresenceOk at h ⊢
  rw [gomokuSetTurnByCursor_players, gomokuSetTurnByCursor_connections]
  exact h

theorem gomokuAssignStones_presOk (conn : List (UserId × Nat)) (ord : List UserId)
    (ps : List GomokuPlayer)
    (h : presOk conn ps GomokuPlayer.userId GomokuPlayer.online) :
    presOk conn (gomokuAssignStones ps ord) GomokuPlayer.userId GomokuPlayer.online := by
  unfold gomokuAssignStones
  generalize List.range ord.length = is
  induction is generalizing ps with
  | nil => exact h
  | cons i rest ih =>
    rw [List.foldl_cons]
    exact ih _ (presOk_updateByKey h _ _ (fun q => ⟨rfl, Or.inr rfl⟩))

theorem gomokuCreate_presOk (hostId : UserId) (hostName : String) :
    gomokuPresenceOk (gomokuCreate hostId hostName) := by
  intro p hp hc
  simp [gomokuCreate] at hp
  simp [hp]

theorem gomokuJoin_presOk (r : GomokuRoom) (u : UserId) (un : String)
    (h : gomokuPresenceOk r) : gomokuPresenceOk (gomokuJoin r u un).2 := by
  unfold gomokuJoin
  dsimp only
  repeat' split
  all_goals first
    | exact h
    | exact presOk_updateByKey h u _ (fun q => ⟨rfl, Or.inl rfl⟩)
    | exact presOk_append h rfl

theorem gomokuLeave_presOk (r : GomokuRoom) (u : UserId)
    (h : gomokuPresenceOk r) : gomokuPresenceOk (gomokuLeave r u) := by
  have hbase : presOk (connDel r.connections u)
      (removeByKey GomokuPlayer.userId r.players u) GomokuPlayer.userId GomokuPlayer.online :=
    presOk_connDel (presOk_removeByKey h u) u
  unfold gomokuLeave
  dsimp only
  repeat' split
  all_goals first
    | exact hbase
    | exact gomokuPresenceOk_setTurn _ hbase

theorem gomokuStart_presOk (r : GomokuRoom) (caller : UserId)
    (h : gomokuPresenceOk r) : gomokuPresenceOk (gomokuStart r caller).2 := by
  unfold gomokuStart
  dsimp only
  repeat' split
  all_goals first
    | exact h
    | exact gomokuAssignStones_presOk _ _ _ (gomokuPresenceOk_setTurn _ h)

theorem gomokuMove_presOk (r : GomokuRoom) (caller : UserId) (index : Int)
    (h : gomokuPresenceOk r) : gomokuPresenceOk (gomokuMove r caller index).2 := by
  unfold gomokuMove
  dsimp only
  repeat' split
  all_goals first
    | exact h
    | exact gomokuPresenceOk_setTurn _ h

theorem gomokuSseOpen_presOk (r : GomokuRoom) (u : UserId)
    (h : gomokuPresenceOk r) : gomokuPresenceOk (gomokuSseOpen r u).2 := by
  unfold gomokuSseOpen
  dsimp only
  repeat' split
  all_goals first
    | exact h
    | exact presOk_sseOpenConn u h _ (fun q => ⟨rfl, rfl⟩)

theorem gomokuSseClose_presOk (r : GomokuRoom) (u : UserId)
    (h : gomokuPresenceOk r) : gomokuPresenceOk (gomokuSseClose r u) := by
  unfold gomokuSseClose
  dsimp only
  split
  · rename_i hnot
    exact presOk_update_offline u (presOk_sseCloseConn u h)
      (connGetD_zero_of_not_has _ u hnot) _ (fun q => rfl)
  · exact presOk_sseCloseConn u h

theorem bingoPresenceOk_setTurn (r : BingoRoom) (h : bingoPresenceOk r) :
    bingoPresenceOk (setTurnByCursor r) := by
  unfold bingoPresenceOk at h ⊢
  rw [setTurnByCursor_players, setTurnByCursor_connections]
  exact h

theorem bingoPresenceOk_schedule (r : BingoRoom) (now : Nat) (h : bingoPresenceOk r) :
    bingoPresenceOk (scheduleTurn r now) := by
  unfold bingoPresenceOk at h ⊢
  rw [scheduleTurn_players, scheduleTurn_connections]
  exact h

theorem removeBingoBotIfPresent_presOk (r : BingoRoom) (h : bingoPresenceOk r) :
    bingoPresenceOk (removeBingoBotIfPresent r) := by
  unfold removeBingoBotIfPresent
  dsimp only
  repeat' split
  all_goals first
    | exact h
    | exact presOk_connDel (presOk_removeByKey h _) _

theorem ensureBingoBot_presOk (r : BingoRoom) (b : List (List Nat)) (h : bingoPresenceOk r) :
    bingoPresenceOk (ensureBingoBot r b) := by
  unfold ensureBingoBot
  dsimp only
  repeat' split
  all_goals first
    | exact h
    | exact presOk_append h rfl

theorem syncBingoBotForHumans_presOk (r : BingoRoom) (b : List (List Nat))
    (h : bingoPresenceOk r) : bingoPresenceOk (syncBingoBotForHumans r b) := by
  unfold syncBingoBotForHumans
  repeat' split
  all_goals first
    | exact removeBingoBotIfPresent_presOk r h
    | exact ensureBingoBot_presOk r b h

theorem bingoCreate_presOk (hostId : UserId) (hostName : String) (size : Nat)
    (be : Bool) (nums : List Nat) : bingoPresenceOk (bingoCreate hostId hostName size be nums) := by
  intro p hp hc
  simp [bingoCreate] at hp
  simp [hp]

theorem bingoJoin_presOk (r : BingoRoom) (u : UserId) (un : String) (nums : List Nat)
    (h : bingoPresenceOk r) : bingoPresenceOk (bingoJoin r u un nums).2 := by
  unfold bingoJoin
  dsimp only
  repeat' split
  all_goals first
    | exact h
    | exact presOk_updateByKey h u _ (fun q => ⟨rfl, Or.inl rfl⟩)
    | exact removeBingoBotIfPresent_presOk r h
    | exact presOk_append h rfl
    | exact presOk_append (removeBingoBotIfPresent_presOk r h) rfl

theorem bingoLeave_presOk (r : BingoRoom) (u : UserId) (b : List (List Nat)) (now : Nat)
    (h : bingoPresenceOk r) : bingoPresenceOk (bingoLeave r u b now) := by
  have hbase : bingoPresenceOk
      { r with players := removeByKey BingoPlayer.userId r.players u
               connections := connDel r.connections u
               turnOrder := r.turnOrder.filter (fun id => decide (¬ id = u)) } :=
    presOk_connDel (presOk_removeByKey h u) u
  have hsync := syncBingoBotForHumans_presOk _ b hbase
  unfold bingoLeave
  dsimp only
  repeat' split
  all_goals first
    | exact hsync
    | exact bingoPresenceOk_schedule _ now hsync
    | exact bingoPresenceOk_schedule _ now (bingoPresenceOk_setTurn _ hsync)

theorem bingoStart_presOk (r : BingoRoom) (caller : UserId) (t : Int)
    (b : List (List Nat)) (now : Nat) (h : bingoPresenceOk r) :
    bingoPresenceOk (bingoStart r caller t b now).2 := by
  have hsync := syncBingoBotForHumans_presOk r b h
  unfold bingoStart
  dsimp only
  repeat' split
  all_goals first
    | exact h
    | exact hsync
    | exact bingoPresenceOk_schedule _ now (bingoPresenceOk_setTurn _ hsync)

theorem drawNextNumber_presOk (r : BingoRoom) (actor : UserId) (reason : String)
    (num : Int) (now : Nat) (h : bingoPresenceOk r) :
    bingoPresenceOk (drawNextNumber r actor reason num now).2 := by
  unfold drawNextNumber
  dsimp only
  repeat' split
  all_goals first
    | exact h
    | exact bingoPresenceOk_schedule _ now (bingoPresenceOk_setTurn _ h)

theorem bingoDraw_presOk (r : BingoRoom) (caller : UserId) (num : Int) (now : Nat)
    (h : bingoPresenceOk r) : bingoPresenceOk (bingoDraw r caller num now).2 := by
  unfold bingoDraw
  repeat' split
  all_goals first
    | exact h
    | exact drawNextNumber_presOk r caller "manual_pick" num now h

theorem bingoSseOpen_presOk (r : BingoRoom) (u : UserId)
    (h : bingoPresenceOk r) : bingoPresenceOk (bingoSseOpen r u).2 := by
  unfold bingoSseOpen
  dsimp only
  repeat' split
  all_goals first
    | exact h
    | exact presOk_sseOpenConn u h _ (fun q => ⟨rfl, rfl⟩)

theorem bingoSseClose_presOk (r : BingoRoom) (u : UserId)
    (h : bingoPresenceOk r) : bingoPresenceOk (bingoSseClose r u) := by
  unfold bingoSseClose
  dsimp only
  split
  · rename_i hnot
    exact presOk_update_offline u (presOk_sseCloseConn u h)
      (connGetD_zero_of_not_has _ u hnot) _ (fun q => rfl)
  · exact presOk_sseCloseConn u h

/-! ## Status direction lemmas: no operation reintroduces the lobby status -/

theorem memoryFinalize_status (r : MemoryRoom) :
    ((memoryFinalizeIfDone r).2).status = .lobby → r.status = .lobby := by
  unfold memoryFinalizeIfDone
  dsimp only
  split
  · exact fun hst => hst
  · exact fun hst => Status.noConfusion hst

theorem crocJoin_no_lobby_return (r : CrocRoom) (u : UserId) (un : String) :
    (crocJoin r u un).2.status = .lobby → r.status = .lobby := by
  unfold crocJoin
  dsimp only
  repeat' split
  all_goals intro hst
  all_goals exact hst

theorem crocLeave_no_lobby_return (r : CrocRoom) (u : UserId) :
    (crocLeave r u).status = .lobby → r.status = .lobby := by
  unfold crocLeave
  dsimp only
  repeat' split
  all_goals intro hst
  all_goals first
    | exact hst
    | exact Status.noConfusion hst
    | (rw [crocSetTurnByCursor_status] at hst; exact hst)

theorem crocStart_no_lobby_return (r : CrocRoom) (c : UserId) (t : Int) (trap : Nat) :
    (crocStart r c t trap).2.status = .lobby → r.status = .lobby := by
  unfold crocStart
  dsimp only
  repeat' split
  all_goals intro hst
  all_goals first
    | exact hst
    | (rw [crocSetTurnByCursor_status] at hst; exact Status.noConfusion hst)

theorem crocPick_no_lobby_return (r : CrocRoom) (c : UserId) (tooth : Int) :
    (crocPick r c tooth).2.status = .lobby → r.status = .lobby := by
  unfold crocPick
  dsimp only
  repeat' split
  all_goals intro hst
  all_goals first
    | exact hst
    | exact Status.noConfusion hst
    | (rw [crocSetTurnByCursor_status] at hst; exact hst)

theorem crocSseOpen_no_lobby_return (r : CrocRoom) (u : UserId) :
    (crocSseOpen r u).2.status = .lobby → r.status = .lobby := by
  unfold crocSseOpen
  dsimp only
  repeat' split
  all_goals exact fun hst => hst

theorem crocSseClose_no_lobby_return (r : CrocRoom) (u : UserId) :
    (crocSseClose r u).status = .lobby → r.status = .lobby := by
  unfold crocSseClose
  dsimp only
  repeat' split
  all_goals exact fun hst => hst

theorem memoryJoin_no_lobby_return (r : MemoryRoom) (u : UserId) (un : String) :
    (memoryJoin r u un).2.status = .lobby → r.status = .lobby := by
  unfold memoryJoin
  dsimp only
  repeat' split
  all_goals exact fun hst => hst

theorem memoryLeave_no_lobby_return (r : MemoryRoom) (u : UserId) :
    (memoryLeave r u).status = .lobby → r.status = .lobby := by
  unfold memoryLeave
  dsimp only
  repeat' split
  all_goals intro hst
  all_goals first
    | exact hst
    | exact Status.noConfusion hst
    | (rw [memorySetTurnByCursor_status] at hst; exact hst)

theorem memoryStart_no_lobby_return (r : MemoryRoom) (c : UserId) (cc : Option Int)
    (deck : List MemoryCard) :
    (memoryStart r c cc deck).2.status = .lobby → r.status = .lobby := by
  unfold memoryStart
  dsimp only
  repeat' split
  all_goals intro hst
  all_goals first
    | exact hst
    | (rw [memorySetTurnByCursor_status] at hst; exact Status.noConfusion hst)

theorem memoryPick_no_lobby_return (r : MemoryRoom) (c : UserId) (index : Int) :
    (memoryPick r c index).2.status = .lobby → r.status = .lobby := by
  unfold memoryPick memoryResolveMismatchLater
  repeat' split
  all_goals try exact fun hst => hst
  all_goals dsimp only
  all_goals repeat' split
  all_goals intro hst
  all_goals first
    | exact hst
    | (dsimp only at hst
       have h2 := memoryFinalize_status _ hst
       exact h2)

theorem memoryResolveTick_no_lobby_return (r : MemoryRoom) :
    (memoryResolveTick r).status = .lobby → r.status = .lobby := by
  unfold memoryResolveTick
  dsimp only
  repeat' split
  all_goals intro hst
  all_goals first
    | exact hst
    | (rw [memorySetTurnByCursor_status] at hst; exact hst)

theorem memorySseOpen_no_lobby_return (r : MemoryRoom) (u : UserId) :
    (memorySseOpen r u).2.status = .lobby → r.status = .lobby := by
  unfold memorySseOpen
  dsimp only
  repeat' split
  all_goals exact fun hst => hst

theorem memorySseClose_no_lobby_return (r : MemoryRoom) (u : UserId) :
    (memorySseClose r u).status = .lobby → r.status = .lobby := by
  unfold memorySseClose
  dsimp only
  repeat' split
  all_goals exact fun hst => hst

theorem gomokuJoin_no_lobby_return (r : GomokuRoom) (u : UserId) (un : String) :
    (gomokuJoin r u un).2.status = .lobby → r.status = .lobby := by
  unfold gomokuJoin
  dsimp only
  repeat' split
  all_goals exact fun hst => hst

theorem gomokuLeave_no_lobby_return (r : GomokuRoom) (u : UserId) :
    (gomokuLeave r u).status = .lobby → r.status = .lobby := by
  unfold gomokuLeave
  dsimp only
  repeat' split
  all_goals intro hst
  all_goals first
    | exact hst
    | exact Status.noConfusion hst
    | (rw [gomokuSetTurnByCursor_status] at hst; exact hst)

theorem gomokuStart_no_lobby_return (r : GomokuRoom) (c : UserId) :
    (gomokuStart r c).2.status = .lobby → r.status = .lobby := by
  unfold gomokuStart
  dsimp only
  repeat' split
  all_goals intro hst
  all_goals first
    | exact hst
    | (rw [gomokuSetTurnByCursor_status] at hst; exact Status.noConfusion hst)

theorem gomokuMove_no_lobby_return (r : GomokuRoom) (c : UserId) (index : Int) :
    (gomokuMove r c index).2.status = .lobby → r.status = .lobby := by
  unfold gomokuMove
  dsimp only
  repeat' split
  all_goals intro hst
  all_goals first
    | exact hst
    | exact Status.noConfusion hst
    | (rw [gomokuSetTurnByCursor_status] at hst; exact hst)

theorem gomokuSseOpen_no_lobby_return (r : GomokuRoom) (u : UserId) :
    (gomokuSseOpen r u).2.status = .lobby → r.status = .lobby := by
  unfold gomokuSseOpen
  dsimp only
  repeat' split
  all_goals exact fun hst => hst

theorem gomokuSseClose_no_lobby_return (r : GomokuRoom) (u : UserId) :
    (gomokuSseClose r u).status = .lobby → r.status = .lobby := by
  unfold gomokuSseClose
  dsimp only
  repeat' split
  all_goals exact fun hst => hst

theorem bingoJoin_no_lobby_return (r : BingoRoom) (u : UserId) (un : String)
    (nums : List Nat) : (bingoJoin r u un nums).2.status = .lobby → r.status = .lobby := by
  unfold bingoJoin
  dsimp only
  repeat' split
  all_goals intro hst
  all_goals first
    | exact hst
    | (rw [removeBingoBotIfPresent_status] at hst; exact hst)

theorem bingoLeave_no_lobby_return (r : BingoRoom) (u : UserId) (b : List (List Nat))
    (now : Nat) : (bingoLeave r u b now).status = .lobby → r.status = .lobby := by
  unfold bingoLeave
  dsimp only
  repeat' split
  all_goals intro hst
  all_goals first
    | (rw [syncBingoBotForHumans_status] at hst; exact hst)
    | exact Status.noConfusion hst
    | (rw [scheduleTurn_status, setTurnByCursor_status, syncBingoBotForHumans_status] at hst;
       exact hst)
    | (rw [scheduleTurn_status, syncBingoBotForHumans_status] at hst; exact hst)

theorem bingoStart_no_lobby_return (r : BingoRoom) (c : UserId) (t : Int)
    (b : List (List Nat)) (now : Nat) :
    (bingoStart r c t b now).2.status = .lobby → r.status = .lobby := by
  unfold bingoStart
  dsimp only
  repeat' split
  all_goals intro hst
  all_goals first
    | exact hst
    | (rw [syncBingoBotForHumans_status] at hst; exact hst)
    | (rw [scheduleTurn_status, setTurnByCursor_status] at hst; exact Status.noConfusion hst)

theorem drawNextNumber_no_lobby_return (r : BingoRoom) (actor : UserId) (reason : String)
    (num : Int) (now : Nat) :
    (drawNextNumber r actor reason num now).2.status = .lobby → r.status = .lobby := by
  unfold drawNextNumber
  dsimp only
  repeat' split
  all_goals intro hst
  all_goals first
    | exact hst
    | exact Status.noConfusion hst
    | (rw [scheduleTurn_status, setTurnByCursor_status] at hst; exact hst)

theorem bingoDraw_no_lobby_return (r : BingoRoom) (c : UserId) (num : Int) (now : Nat) :
    (bingoDraw r c num now).2.status = .lobby → r.status = .lobby := by
  unfold bingoDraw
  repeat' split
  all_goals first
    | exact fun hst => hst
    | exact drawNextNumber_no_lobby_return r c "manual_pick" num now

theorem bingoSseOpen_no_lobby_return (r : BingoRoom) (u : UserId) :
    (bingoSseOpen r u).2.status = .lobby → r.status = .lobby := by
  unfold bingoSseOpen
  dsimp only
  repeat' split
  all_goals exact fun hst => hst

theorem bingoSseClose_no_lobby_return (r : BingoRoom) (u : UserId) :
    (bingoSseClose r u).status = .lobby → r.status = .lobby := by
  unfold bingoSseClose
  dsimp only
  repeat' split
  all_goals exact fun hst => hst

/-! ## Successful start always lands in playing, whatever the prior status -/

theorem crocStart_ok_playing (r : CrocRoom) (c : UserId) (t : Int) (trap : Nat) :
    (crocStart r c t trap).1 = .ok () → (crocStart r c t trap).2.status = .playing := by
  unfold crocStart
  dsimp only
  repeat' split
  all_goals intro hok
  all_goals first
    | exact Except.noConfusion hok
    | rw [crocSetTurnByCursor_status]

theorem memoryStart_ok_playing (r : MemoryRoom) (c : UserId) (cc : Option Int)
    (deck : List MemoryCard) :
    (memoryStart r c cc deck).1 = .ok () → (memoryStart r c cc deck).2.status = .playing := by
  unfold memoryStart
  dsimp only
  repeat' split
  all_goals intro hok
  all_goals first
    | exact Except.noConfusion hok
    | rw [memorySetTurnByCursor_status]

theorem gomokuStart_ok_playing (r : GomokuRoom) (c : UserId) :
    (gomokuStart r c).1 = .ok () → (gomokuStart r c).2.status = .playing := by
  unfold gomokuStart
  dsimp only
  repeat' split
  all_goals intro hok
  all_goals first
    | exact Except.noConfusion hok
    | (show (gomokuSetTurnByCursor _).status = .playing
       rw [gomokuSetTurnByCursor_status])

theorem bingoStart_ok_playing (r : BingoRoom) (c : UserId) (t : Int)
    (b : List (List Nat)) (now : Nat) :
    (bingoStart r c t b now).1 = .ok () → (bingoStart r c t b now).2.status = .playing := by
  unfold bingoStart
  dsimp only
  repeat' split
  all_goals intro hok
  all_goals first
    | exact Except.noConfusion hok
    | rw [scheduleTurn_status, setTurnByCursor_status]

/-- C2 (amended): for every player, connections[userId] > 0 implies
online = true, and this implication is established at create and preserved
by every operation of every game (join, leave, start, the game moves, the
mismatch timer, and stream open/close).  The converse direction of the
original claim fails: create and join set online = true while the
connection count is still 0 (see the counterexample theorem). -/
theorem c2_presence_invariant_preserved :
    (∀ hostId hostName, crocPresenceOk (crocCreate hostId hostName)) ∧
    (∀ r u un, crocPresenceOk r → crocPresenceOk (crocJoin r u un).2) ∧
    (∀ r u, crocPresenceOk r → crocPresenceOk (crocLeave r u)) ∧
    (∀ r c t trap, crocPresenceOk r → crocPresenceOk (crocStart r c t trap).2) ∧
    (∀ r c tooth, crocPresenceOk r → crocPresenceOk (crocPick r c tooth).2) ∧
    (∀ r u, crocPresenceOk r → crocPresenceOk (crocSseOpen r u).2) ∧
    (∀ r u, crocPresenceOk r → crocPresenceOk (crocSseClose r u)) ∧
    (∀ hostId hostName cc, memoryPresenceOk (memoryCreate hostId hostName cc)) ∧
    (∀ r u un, memoryPresenceOk r → memoryPresenceOk (memoryJoin r u un).2) ∧
    (∀ r u, memoryPresenceOk r → memoryPresenceOk (memoryLeave r u)) ∧
    (∀ r c cc deck, memoryPresenceOk r → memoryPresenceOk (memoryStart r c cc deck).2) ∧
    (∀ r c index, memoryPresenceOk r → memoryPresenceOk (memoryPick r c index).2) ∧
    (∀ r, memoryPresenceOk r → memoryPresenceOk (memoryResolveTick r)) ∧
    (∀ r u, memoryPresenceOk r → memoryPresenceOk (memorySseOpen r u).2) ∧
    (∀ r u, memoryPresenceOk r → memoryPresenceOk (memorySseClose r u)) ∧
    (∀ hostId hostName, gomokuPresenceOk (gomokuCreate hostId hostName)) ∧
    (∀ r u un, gomokuPresenceOk r → gomokuPresenceOk (gomokuJoin r u un).2) ∧
    (∀ r u, gomokuPresenceOk r → gomokuPresenceOk (gomokuLeave r u)) ∧
    (∀ r c, gomokuPresenceOk r → gomokuPresenceOk (gomokuStart r c).2) ∧
    (∀ r c index, gomokuPresenceOk r → gomokuPresenceOk (gomokuMove r c index).2) ∧
    (∀ r u, gomokuPresenceOk r → gomokuPresenceOk (gomokuSseOpen r u).2) ∧
    (∀ r u, gomokuPresenceOk r → gomokuPresenceOk (gomokuSseClose r u)) ∧
    (∀ hostId hostName size be nums, bingoPresenceOk (bingoCreate hostId hostName size be nums)) ∧
    (∀ r u un nums, bingoPresenceOk r → bingoPresenceOk (bingoJoin r u un nums).2) ∧
    (∀ r u b now, bingoPresenceOk r → bingoPresenceOk (bingoLeave r u b now)) ∧
    (∀ r c t b now, bingoPresenceOk r → bingoPresenceOk (bingoStart r c t b now).2) ∧
    (∀ r c num now, bingoPresenceOk r → bingoPresenceOk (bingoDraw r c num now).2) ∧
    (∀ r a reason num now, bingoPresenceOk r → bingoPresenceOk (drawNextNumber r a reason num now).2) ∧
    (∀ r u, bingoPresenceOk r → bingoPresenceOk (bingoSseOpen r u).2) ∧
    (∀ r u, bingoPresenceOk r → bingoPresenceOk (bingoSseClose r u)) := by
  refine ⟨crocCreate_presOk, crocJoin_presOk, crocLeave_presOk, crocStart_presOk,
    crocPick_presOk, crocSseOpen_presOk, crocSseClose_presOk,
    memoryCreate_presOk, memoryJoin_presOk, memoryLeave_presOk, ?_,
    memoryPick_presOk, memoryResolveTick_presOk, memorySseOpen_presOk, memorySseClose_presOk,
    gomokuCreate_presOk, gomokuJoin_presOk, gomokuLeave_presOk, gomokuStart_presOk,
    gomokuMove_presOk, gomokuSseOpen_presOk, gomokuSseClose_presOk,
    ?_, ?_, ?_, ?_, ?_, ?_, bingoSseOpen_presOk, bingoSseClose_presOk⟩
  · exact fun r c cc deck h => memoryStart_presOk r c cc deck h
  · exact fun hostId hostName size be nums => bingoCreate_presOk hostId hostName size be nums
  · exact fun r u un nums h => bingoJoin_presOk r u un nums h
  · exact fun r u b now h => bingoLeave_presOk r u b now h
  · exact fun r c t b now h => bingoStart_presOk r c t b now h
  · exact fun r c num now h => bingoDraw_presOk r c num now h
  · exact fun r a reason num now h => drawNextNumber_presOk r a reason num now h

/-- C2 witness: the preserved implication applied to a concrete join on a
fresh croc room. -/
theorem c2_presence_invariant_witness :
    crocPresenceOk (crocJoin (crocCreate "A" "alice") "B" "bob").2 :=
  c2_presence_invariant_preserved.2.1 (crocCreate "A" "alice") "B" "bob" (by decide)

/-- C3 (amended): a room's status never returns to lobby — every operation
of every game maps a non-lobby room to a non-lobby room (equivalently, a
post-state in lobby forces a pre-state in lobby).  The claimed impossibility
of backwards transitions out of ended fails, however: start does not check
the current status, and a successful start always lands in playing, also
when the room was already playing or ended (restart; see the counterexample
theorem for a concrete ended-to-playing transition). -/
theorem c3_status_no_lobby_return_and_restart :
    (∀ r u un, (crocJoin r u un).2.status = .lobby → r.status = .lobby) ∧
    (∀ r u, (crocLeave r u).status = .lobby → r.status = .lobby) ∧
    (∀ r c t trap, (crocStart r c t trap).2.status = .lobby → r.status = .lobby) ∧
    (∀ r c tooth, (crocPick r c tooth).2.status = .lobby → r.status = .lobby) ∧
    (∀ r u, (crocSseOpen r u).2.status = .lobby → r.status = .lobby) ∧
    (∀ r u, (crocSseClose r u).status = .lobby → r.status = .lobby) ∧
    (∀ r u un, (memoryJoin r u un).2.status = .lobby → r.status = .lobby) ∧
    (∀ r u, (memoryLeave r u).status = .lobby → r.status = .lobby) ∧
    (∀ r c cc deck, (memoryStart r c cc deck).2.status = .lobby → r.status = .lobby) ∧
    (∀ r c index, (memoryPick r c index).2.status = .lobby → r.status = .lobby) ∧
    (∀ r, (memoryResolveTick r).status = .lobby → r.status = .lobby) ∧
    (∀ r u, (memorySseOpen r u).2.status = .lobby → r.status = .lobby) ∧
    (∀ r u, (memorySseClose r u).status = .lobby → r.status = .lobby) ∧
    (∀ r u un, (gomokuJoin r u un).2.status = .lobby → r.status = .lobby) ∧
    (∀ r u, (gomokuLeave r u).status = .lobby → r.status = .lobby) ∧
    (∀ r c, (gomokuStart r c).2.status = .lobby → r.status = .lobby) ∧
    (∀ r c index, (gomokuMove r c index).2.status = .lobby → r.status = .lobby) ∧
    (∀ r u, (gomokuSseOpen r u).2.status = .lobby → r.status = .lobby) ∧
    (∀ r u, (gomokuSseClose r u).status = .lobby → r.status = .lobby) ∧
    (∀ r u un nums, (bingoJoin r u un nums).2.status = .lobby → r.status = .lobby) ∧
    (∀ r u b now, (bingoLeave r u b now).status = .lobby → r.status = .lobby) ∧
    (∀ r c t b now, (bingoStart r c t b now).2.status = .lobby → r.status = .lobby) ∧
    (∀ r c num now, (bingoDraw r c num now).2.status = .lobby → r.status = .lobby) ∧
    (∀ r a reason num now, (drawNextNumber r a reason num now).2.status = .lobby → r.status = .lobby) ∧
    (∀ r u, (bingoSseOpen r u).2.status = .lobby → r.status = .lobby) ∧
    (∀ r u, (bingoSseClose r u).status = .lobby → r.status = .lobby) ∧
    (∀ r c t trap, (crocStart r c t trap).1 = .ok () → (crocStart r c t trap).2.status = .playing) ∧
    (∀ r c cc deck, (memoryStart r c cc deck).1 = .ok () → (memoryStart r c cc deck).2.status = .playing) ∧
    (∀ r c, (gomokuStart r c).1 = .ok () → (gomokuStart r c).2.status = .playing) ∧
    (∀ r c t b now, (bingoStart r c t b now).1 = .ok () → (bingoStart r c t b now).2.status = .playing) :=
  ⟨crocJoin_no_lobby_return, crocLeave_no_lobby_return, crocStart_no_lobby_return,
   crocPick_no_lobby_return, crocSseOpen_no_lobby_return, crocSseClose_no_lobby_return,
   memoryJoin_no_lobby_return, memoryLeave_no_lobby_return, memoryStart_no_lobby_return,
   memoryPick_no_lobby_return, memoryResolveTick_no_lobby_return,
   memorySseOpen_no_lobby_return, memorySseClose_no_lobby_return,
   gomokuJoin_no_lobby_return, gomokuLeave_no_lobby_return, gomokuStart_no_lobby_return,
   gomokuMove_no_lobby_return, gomokuSseOpen_no_lobby_return, gomokuSseClose_no_lobby_return,
   bingoJoin_no_lobby_return, bingoLeave_no_lobby_return, bingoStart_no_lobby_return,
   bingoDraw_no_lobby_return, drawNextNumber_no_lobby_return,
   bingoSseOpen_no_lobby_return, bingoSseClose_no_lobby_return,
   crocStart_ok_playing, memoryStart_ok_playing, gomokuStart_ok_playing, bingoStart_ok_playing⟩

/-- C3 witness: the no-lobby-return conjunct applied to a concrete leave on
a fresh croc room, and the restart conjunct applied to the concrete ended
room of the counterexample. -/
theorem c3_status_witness :
    (crocCreate "A" "alice").status = .lobby ∧
    (crocStart c3EndedRoom "A" 10 5).2.status = .playing :=
  ⟨c3_status_no_lobby_return_and_restart.2.1 (crocCreate "A" "alice") "B" (by decide),
   (c3_status_no_lobby_return_and_restart.2.2.2.2.2.2.2.2.2.2.2.2.2.2.2.2.2.2.2.2.2.2.2.2.2.2.1
     c3EndedRoom "A" 10 5 (by decide))⟩

/-- C5 (amended): a draw attempted while no numbers remain answers ok with a
null number and ends the game with an empty winners list.  The game ends on
this next attempt, not at the draw that exhausted the numbers. -/
theorem c5_amended_draw_on_exhausted_ends_empty (r : BingoRoom) (actor : UserId)
    (reason : String) (num : Int) (now : Nat)
    (hs : r.status = .playing)
    (hrem : (List.range' 1 (r.size * r.size)).filter
      (fun n => decide (¬ n ∈ r.calledNumbers)) = []) :
    (drawNextNumber r actor reason num now).1 = .ok none ∧
    (drawNextNumber r actor reason num now).2.status = .ended ∧
    (drawNextNumber r actor reason num now).2.winners = [] ∧
    (drawNextNumber r actor reason num now).2.turnUserId = none := by
  unfold drawNextNumber
  rw [if_neg (by simp [hs])]
  dsimp only
  rw [if_pos (by rw [hrem]; rfl)]
  exact ⟨rfl, rfl, rfl, rfl⟩

/-- The room of the C5 counterexample after all 25 numbers have been called. -/
def c5AllCalledRoom : BingoRoom :=
  { c5Room with calledNumbers := List.range' 1 25 }

/-- C5 witness: the amended statement applied to the concrete exhausted room. -/
theorem c5_amended_witness :
    (drawNextNumber c5AllCalledRoom "A" "manual_pick" 1 0).1 = .ok none ∧
    (drawNextNumber c5AllCalledRoom "A" "manual_pick" 1 0).2.status = .ended ∧
    (drawNextNumber c5AllCalledRoom "A" "manual_pick" 1 0).2.winners = [] ∧
    (drawNextNumber c5AllCalledRoom "A" "manual_pick" 1 0).2.turnUserId = none :=
  c5_amended_draw_on_exhausted_ends_empty c5AllCalledRoom "A" "manual_pick" 1 0
    (by decide) (by decide)

/-! ## Bot synchronisation lemmas for C6 -/

theorem hasKey_append_right (key : α → UserId) (xs : List α) (np : α) (u : UserId)
    (hk : key np = u) : hasKey key (xs ++ [np]) u = true := by
  unfold hasKey findByKey
  rw [List.find?_append]
  cases hfind : xs.find? (fun x => decide (key x = u)) with
  | some a => simp [Option.or]
  | none => simp [Option.or, List.find?, hk]

theorem syncBingoBotForHumans_has_bot (r : BingoRoom) (b : List (List Nat))
    (hbe : r.botEnabled = true) (hc : countHumanPlayers r ≤ 1) :
    hasKey BingoPlayer.userId (syncBingoBotForHumans r b).players BINGO_BOT_USER_ID = true := by
  unfold syncBingoBotForHumans
  rw [if_neg (by simp [hbe]), if_pos hc]
  unfold ensureBingoBot
  rw [if_neg (by simp [hbe])]
  split
  · assumption
  · exact hasKey_append_right _ _ _ _ rfl

theorem filter_idem (q : α → Bool) (xs : List α) :
    (xs.filter q).filter q = xs.filter q := by
  rw [List.filter_filter]
  induction xs with
  | nil => rfl
  | cons x rest ih =>
    by_cases hx : q x = true <;> simp [List.filter, hx, ih]

theorem countHumanPlayers_removeBot (r : BingoRoom) :
    countHumanPlayers (removeBingoBotIfPresent r) = countHumanPlayers r := by
  unfold removeBingoBotIfPresent
  dsimp only
  split
  · rfl
  · split
    · show ((removeByKey BingoPlayer.userId r.players BINGO_BOT_USER_ID).filter _).length = _
      unfold removeByKey countHumanPlayers
      rw [filter_idem]
    · show ((removeByKey BingoPlayer.userId r.players BINGO_BOT_USER_ID).filter _).length = _
      unfold removeByKey countHumanPlayers
      rw [filter_idem]

theorem countHumanPlayers_ensureBot (r : BingoRoom) (b : List (List Nat)) :
    countHumanPlayers (ensureBingoBot r b) = countHumanPlayers r := by
  unfold ensureBingoBot
  dsimp only
  split
  · rfl
  · split
    · rfl
    · unfold countHumanPlayers
      show (List.filter _ (r.players ++ [_])).length = _
      rw [List.filter_append]
      simp

theorem countHumanPlayers_sync (r : BingoRoom) (b : List (List Nat)) :
    countHumanPlayers (syncBingoBotForHumans r b) = countHumanPlayers r := by
  unfold syncBingoBotForHumans
  repeat' split
  all_goals first
    | exact countHumanPlayers_removeBot r
    | exact countHumanPlayers_ensureBot r b

@[simp]
theorem removeBingoBotIfPresent_botEnabled (r : BingoRoom) :
    (removeBingoBotIfPresent r).botEnabled = r.botEnabled := by
  unfold removeBingoBotIfPresent
  dsimp only
  repeat' split
  all_goals rfl

@[simp]
theorem ensureBingoBot_botEnabled (r : BingoRoom) (b : List (List Nat)) :
    (ensureBingoBot r b).botEnabled = r.botEnabled := by
  unfold ensureBingoBot
  dsimp only
  repeat' split
  all_goals rfl

@[simp]
theorem syncBingoBotForHumans_botEnabled (r : BingoRoom) (b : List (List Nat)) :
    (syncBingoBotForHumans r b).botEnabled = r.botEnabled := by
  unfold syncBingoBotForHumans
  repeat' split
  all_goals simp

@[simp]
theorem setTurnByCursor_botEnabled (r : BingoRoom) :
    (setTurnByCursor r).botEnabled = r.botEnabled := by
  unfold setTurnByCursor
  split <;> rfl

@[simp]
theorem scheduleTurn_botEnabled (r : BingoRoom) (now : Nat) :
    (scheduleTurn r now).botEnabled = r.botEnabled := by
  unfold scheduleTurn clearTurnTimer
  dsimp only
  split
  · rfl
  · split <;> [rfl; split <;> rfl]

/-- The abbreviation for the room state right after the removal phase of a
bingo leave, before the bot sync. -/
def bingoLeaveRemoved (r : BingoRoom) (u : UserId) : BingoRoom :=
  { r with players := removeByKey BingoPlayer.userId r.players u
           connections := connDel r.connections u
           turnOrder := r.turnOrder.filter (fun id => decide (¬ id = u)) }

theorem bingoLeave_players (r : BingoRoom) (u : UserId) (b : List (List Nat)) (now : Nat) :
    (bingoLeave r u b now).players =
      (syncBingoBotForHumans (bingoLeaveRemoved r u) b).players := by
  unfold bingoLeave bingoLeaveRemoved
  dsimp only
  repeat' split
  all_goals first
    | rfl
    | rw [scheduleTurn_players, setTurnByCursor_players]
    | rw [scheduleTurn_players]

theorem bingoLeave_botEnabled (r : BingoRoom) (u : UserId) (b : List (List Nat)) (now : Nat) :
    (bingoLeave r u b now).botEnabled = r.botEnabled := by
  unfold bingoLeave
  dsimp only
  repeat' split
  all_goals simp

theorem bingoStart_ok_players (r : BingoRoom) (c : UserId) (t : Int)
    (b : List (List Nat)) (now : Nat) :
    (bingoStart r c t b now).1 = .ok () →
    (bingoStart r c t b now).2.players = (syncBingoBotForHumans r b).players := by
  unfold bingoStart
  dsimp only
  repeat' split
  all_goals intro hok
  all_goals first
    | exact Except.noConfusion hok
    | rfl
    | rw [scheduleTurn_players, setTurnByCursor_players]

theorem bingoStart_botEnabled (r : BingoRoom) (c : UserId) (t : Int)
    (b : List (List Nat)) (now : Nat) :
    (bingoStart r c t b now).2.botEnabled = r.botEnabled := by
  unfold bingoStart
  dsimp only
  repeat' split
  all_goals simp

/-- C6 (amended): the bot-presence policy is enforced by the bot sync, which
runs on leave and on start (not on create or join): after any leave, and
after any successful start, a bot-enabled room with at most one human
contains the bot player.  After a create with vsComputer = true the room
holds only the host (see the counterexample theorem). -/
theorem c6_amended_bot_presence_after_leave_start :
    (∀ r u b now, (bingoLeave r u b now).botEnabled = true →
      countHumanPlayers (bingoLeave r u b now) ≤ 1 →
      hasKey BingoPlayer.userId (bingoLeave r u b now).players BINGO_BOT_USER_ID = true) ∧
    (∀ r c t b now, (bingoStart r c t b now).1 = .ok () →
      (bingoStart r c t b now).2.botEnabled = true →
      countHumanPlayers (bingoStart r c t b now).2 ≤ 1 →
      hasKey BingoPlayer.userId (bingoStart r c t b now).2.players BINGO_BOT_USER_ID
        = true) := by
  constructor
  · intro r u b now hbe hc
    rw [bingoLeave_players]
    have hbr : r.botEnabled = true := by
      rw [← bingoLeave_botEnabled r u b now]
      exact hbe
    have hbe1 : (bingoLeaveRemoved r u).botEnabled = true := hbr
    have hc1 : countHumanPlayers (bingoLeaveRemoved r u) ≤ 1 := by
      have he : countHumanPlayers (bingoLeave r u b now)
          = countHumanPlayers (syncBingoBotForHumans (bingoLeaveRemoved r u) b) := by
        unfold countHumanPlayers
        rw [bingoLeave_players]
      rw [he, countHumanPlayers_sync] at hc
      exact hc
    exact syncBingoBotForHumans_has_bot _ b hbe1 hc1
  · intro r c t b now hok hbe hc
    rw [bingoStart_ok_players r c t b now hok]
    have hbe1 : r.botEnabled = true := by
      rw [← bingoStart_botEnabled r c t b now]
      exact hbe
    have hc1 : countHumanPlayers r ≤ 1 := by
      have he : countHumanPlayers (bingoStart r c t b now).2
          = countHumanPlayers (syncBingoBotForHumans r b) := by
        unfold countHumanPlayers
        rw [bingoStart_ok_players r c t b now hok]
      rw [he, countHumanPlayers_sync] at hc
      exact hc
    exact syncBingoBotForHumans_has_bot _ b hbe1 hc1

/-- C6 witness: starting the concrete vsComputer room seats the bot. -/
theorem c6_amended_witness :
    hasKey BingoPlayer.userId
      (bingoStart c2Room "A" 10 (generateBoard 5 (List.range' 1 25)) 0).2.players
      BINGO_BOT_USER_ID = true :=
  c6_amended_bot_presence_after_leave_start.2 c2Room "A" 10
    (generateBoard 5 (List.range' 1 25)) 0 (by decide) (by decide) (by decide)

/-- The gomoku room of end-to-end scenario 6, one move before the win: B has
stones on 112..115, W on 0..3, and B (alice) is about to play 116. -/
def c7Room : GomokuRoom :=
  let g0 := gomokuCreate "A" "alice"
  let g1 := (gomokuJoin g0 "B" "bob").2
  let g2 := (gomokuStart g1 "A").2
  let ms : List (UserId × Int) :=
    [("A", 112), ("B", 0), ("A", 113), ("B", 1), ("A", 114), ("B", 2), ("A", 115), ("B", 3)]
  ms.foldl (fun r m => (gomokuMove r m.1 m.2).2) g2

/-- The record of alice inside c7Room. -/
def c7Player : GomokuPlayer :=
  { userId := "A", username := "alice", online := true, stone := some .B }

/-- C7 witness: the move theorem applied to the concrete five-in-a-row. -/
theorem c7_witness :
    (gomokuMove c7Room "A" 116).1 = .ok .endedWin ∧
    (gomokuMove c7Room "A" 116).2.status = .ended ∧
    (gomokuMove c7Room "A" 116).2.winnerUserId = some "A" ∧
    (gomokuMove c7Room "A" 116).2.winnerStone = some Stone.B ∧
    (gomokuMove c7Room "A" 116).2.draw = false := by
  have h := c7_gomoku_move_win_draw_advance c7Room "A" 116 c7Player Stone.B (by decide)
    (by decide) (by decide) (by decide) (by decide) (by decide) (by decide) (by decide)
    (by decide)
  have hfive : gomokuHasFive (c7Room.board.set (116 : Int).toNat (some Stone.B))
      c7Room.boardSize (116 : Int).toNat Stone.B = true := by decide
  rcases h.2.1 hfive with ⟨h1, h2, h3, h4⟩
  exact ⟨h.1.mpr hfive, h1, h2, h3, h4⟩

/-! ## Frame lemmas for the bingo start handler (C10) -/

@[simp]
theorem scheduleTurn_calledNumbers (r : BingoRoom) (now : Nat) :
    (scheduleTurn r now).calledNumbers = r.calledNumbers := by
  unfold scheduleTurn clearTurnTimer
  dsimp only
  split
  · rfl
  · split <;> [rfl; split <;> rfl]

@[simp]
theorem scheduleTurn_winners (r : BingoRoom) (now : Nat) :
    (scheduleTurn r now).winners = r.winners := by
  unfold scheduleTurn clearTurnTimer
  dsimp only
  split
  · rfl
  · split <;> [rfl; split <;> rfl]

@[simp]
theorem scheduleTurn_lastNumber (r : BingoRoom) (now : Nat) :
    (scheduleTurn r now).lastNumber = r.lastNumber := by
  unfold scheduleTurn clearTurnTimer
  dsimp only
  split
  · rfl
  · split <;> [rfl; split <;> rfl]

@[simp]
theorem scheduleTurn_lastDrawByUserId (r : BingoRoom) (now : Nat) :
    (scheduleTurn r now).lastDrawByUserId = r.lastDrawByUserId := by
  unfold scheduleTurn clearTurnTimer
  dsimp only
  split
  · rfl
  · split <;> [rfl; split <;> rfl]

@[simp]
theorem scheduleTurn_lastDrawByUsername (r : BingoRoom) (now : Nat) :
    (scheduleTurn r now).lastDrawByUsername = r.lastDrawByUsername := by
  unfold scheduleTurn clearTurnTimer
  dsimp only
  split
  · rfl
  · split <;> [rfl; split <;> rfl]

@[simp]
theorem scheduleTurn_lastDrawReason (r : BingoRoom) (now : Nat) :
    (scheduleTurn r now).lastDrawReason = r.lastDrawReason := by
  unfold scheduleTurn clearTurnTimer
  dsimp only
  split
  · rfl
  · split <;> [rfl; split <;> rfl]

@[simp]
theorem scheduleTurn_turnOrder (r : BingoRoom) (now : Nat) :
    (scheduleTurn r now).turnOrder = r.turnOrder := by
  unfold scheduleTurn clearTurnTimer
  dsimp only
  split
  · rfl
  · split <;> [rfl; split <;> rfl]

@[simp]
theorem scheduleTurn_turnCursor (r : BingoRoom) (now : Nat) :
    (scheduleTurn r now).turnCursor = r.turnCursor := by
  unfold scheduleTurn clearTurnTimer
  dsimp only
  split
  · rfl
  · split <;> [rfl; split <;> rfl]

@[simp]
theorem scheduleTurn_turnUserId (r : BingoRoom) (now : Nat) :
    (scheduleTurn r now).turnUserId = r.turnUserId := by
  unfold scheduleTurn clearTurnTimer
  dsimp only
  split
  · rfl
  · split <;> [rfl; split <;> rfl]

@[simp]
theorem setTurnByCursor_calledNumbers (r : BingoRoom) :
    (setTurnByCursor r).calledNumbers = r.calledNumbers := by
  unfold setTurnByCursor
  split <;> rfl

@[simp]
theorem setTurnByCursor_winners (r : BingoRoom) :
    (setTurnByCursor r).winners = r.winners := by
  unfold setTurnByCursor
  split <;> rfl

@[simp]
theorem setTurnByCursor_lastNumber (r : BingoRoom) :
    (setTurnByCursor r).lastNumber = r.lastNumber := by
  unfold setTurnByCursor
  split <;> rfl

@[simp]
theorem setTurnByCursor_lastDrawByUserId (r : BingoRoom) :
    (setTurnByCursor r).lastDrawByUserId = r.lastDrawByUserId := by
  unfold setTurnByCursor
  split <;> rfl

@[simp]
theorem setTurnByCursor_lastDrawByUsername (r : BingoRoom) :
    (setTurnByCursor r).lastDrawByUsername = r.lastDrawByUsername := by
  unfold setTurnByCursor
  split <;> rfl

@[simp]
theorem setTurnByCursor_lastDrawReason (r : BingoRoom) :
    (setTurnByCursor r).lastDrawReason = r.lastDrawReason := by
  unfold setTurnByCursor
  split <;> rfl

@[simp]
theorem setTurnByCursor_turnOrder (r : BingoRoom) :
    (setTurnByCursor r).turnOrder = r.turnOrder := by
  unfold setTurnByCursor
  split <;> rfl

theorem setTurnByCursor_turnCursor_zero (r : BingoRoom) (h : r.turnCursor = 0) :
    (setTurnByCursor r).turnCursor = 0 := by
  unfold setTurnByCursor
  split
  · exact h
  · show r.turnCursor % r.turnOrder.length = 0
    rw [h]
    exact Nat.zero_mod _

theorem setTurnByCursor_turnUserId_zero (r : BingoRoom) (h : r.turnCursor = 0) :
    (setTurnByCursor r).turnUserId = r.turnOrder[(0 : Nat)]? := by
  unfold setTurnByCursor
  split
  · rename_i hlen
    rw [List.length_eq_zero.mp hlen]
    rfl
  · show r.turnOrder[r.turnCursor % r.turnOrder.length]? = _
    rw [h, Nat.zero_mod]

theorem mem_removeBingoBotIfPresent (r : BingoRoom) (q : BingoPlayer)
    (hq : q ∈ (removeBingoBotIfPresent r).players) : q ∈ r.players := by
  unfold removeBingoBotIfPresent at hq
  dsimp only at hq
  split at hq
  · exact hq
  · split at hq
    · exact mem_removeByKey q hq
    · exact mem_removeByKey q hq

theorem mem_ensureBingoBot (r : BingoRoom) (b : List (List Nat)) (q : BingoPlayer)
    (hq : q ∈ (ensureBingoBot r b).players) :
    q ∈ r.players ∨ (q.userId = BINGO_BOT_USER_ID ∧ q.board = b) := by
  unfold ensureBingoBot at hq
  dsimp only at hq
  split at hq
  · exact Or.inl hq
  · split at hq
    · exact Or.inl hq
    · rcases List.mem_append.mp hq with h1 | h1
      · exact Or.inl h1
      · rcases List.mem_singleton.mp h1 with rfl
        exact Or.inr ⟨rfl, rfl⟩

theorem mem_syncBingoBotForHumans (r : BingoRoom) (b : List (List Nat)) (q : BingoPlayer)
    (hq : q ∈ (syncBingoBotForHumans r b).players) :
    q ∈ r.players ∨ (q.userId = BINGO_BOT_USER_ID ∧ q.board = b) := by
  unfold syncBingoBotForHumans at hq
  split at hq
  · exact Or.inl (mem_removeBingoBotIfPresent r q hq)
  · split at hq
    · exact mem_ensureBingoBot r b q hq
    · exact Or.inl (mem_removeBingoBotIfPresent r q hq)

/-- C10: a successful bingo start never modifies an existing player's board:
every player record of the post-state room is either exactly a pre-state
player record (board included) or the freshly seated bot carrying the
generated oracle board.  The start resets calledNumbers, winners, the
last-draw fields and the turn state (cursor 0, turn order rebuilt from the
players in insertion order, turn holder the entry at index 0). -/
theorem c10_bingo_start_preserves_boards (r : BingoRoom) (c : UserId) (t : Int)
    (b : List (List Nat)) (now : Nat)
    (hok : (bingoStart r c t b now).1 = .ok ()) :
    (∀ q ∈ (bingoStart r c t b now).2.players,
      q ∈ r.players ∨ (q.userId = BINGO_BOT_USER_ID ∧ q.board = b)) ∧
    (bingoStart r c t b now).2.calledNumbers = [] ∧
    (bingoStart r c t b now).2.winners = [] ∧
    (bingoStart r c t b now).2.lastNumber = none ∧
    (bingoStart r c t b now).2.lastDrawByUserId = none ∧
    (bingoStart r c t b now).2.lastDrawByUsername = none ∧
    (bingoStart r c t b now).2.lastDrawReason = none ∧
    (bingoStart r c t b now).2.turnCursor = 0 ∧
    (bingoStart r c t b now).2.turnOrder =
      ((bingoStart r c t b now).2.players.map (fun p => p.userId)) ∧
    (bingoStart r c t b now).2.turnUserId = (bingoStart r c t b now).2.turnOrder[(0 : Nat)]? := by
  have hmem : ∀ q ∈ (bingoStart r c t b now).2.players,
      q ∈ r.players ∨ (q.userId = BINGO_BOT_USER_ID ∧ q.board = b) := by
    intro q hq
    rw [bingoStart_ok_players r c t b now hok] at hq
    exact mem_syncBingoBotForHumans r b q hq
  refine ⟨hmem, ?_⟩
  revert hok
  unfold bingoStart
  dsimp only
  repeat' split
  all_goals intro hok
  all_goals first
    | exact Except.noConfusion hok
    | exact ⟨by simp, by simp, by simp, by simp, by simp, by simp,
        by rw [scheduleTurn_turnCursor]; exact setTurnByCursor_turnCursor_zero _ rfl,
        by simp [buildTurnOrder],
        by rw [scheduleTurn_turnUserId, setTurnByCursor_turnUserId_zero _ rfl]; simp⟩

/-- C10 witness: starting the concrete vsComputer room resets the called
numbers and the winners list. -/
theorem c10_witness :
    (bingoStart c2Room "A" 10 (generateBoard 5 (List.range' 1 25)) 0).2.calledNumbers = [] ∧
    (bingoStart c2Room "A" 10 (generateBoard 5 (List.range' 1 25)) 0).2.winners = [] :=
  have h := c10_bingo_start_preserves_boards c2Room "A" 10
    (generateBoard 5 (List.range' 1 25)) 0 (by decide)
  ⟨h.2.1, h.2.2.1⟩

/-! ## Helper lemmas for the memory match branch (C8) -/

theorem listModify_length (xs : List α) (i : Nat) (f : α → α) :
    (listModify xs i f).length = xs.length := by
  induction xs generalizing i with
  | nil => rfl
  | cons x rest ih =>
    cases i with
    | zero => rfl
    | succ n => simp [listModify, ih]

theorem listModify_getD_self (xs : List α) (i : Nat) (f : α → α) (d : α)
    (h : i < xs.length) : (listModify xs i f).getD i d = f (xs.getD i d) := by
  induction xs generalizing i with
  | nil => simp at h
  | cons x rest ih =>
    cases i with
    | zero => rfl
    | succ n =>
      show (listModify rest n f).getD n d = f (rest.getD n d)
      exact ih n (by simpa using h)

theorem listModify_getD_ne (xs : List α) (i j : Nat) (f : α → α) (d : α)
    (h : ¬ j = i) : (listModify xs i f).getD j d = xs.getD j d := by
  induction xs generalizing i j with
  | nil => rfl
  | cons x rest ih =>
    cases i with
    | zero =>
      cases j with
      | zero => exact absurd rfl h
      | succ m => rfl
    | succ n =>
      cases j with
      | zero => rfl
      | succ m =>
        show (listModify rest n f).getD m d = rest.getD m d
        exact ih n m (fun hc => h (by rw [hc]))

theorem findByKey_updateByKey (key : α → UserId) (xs : List α) (u : UserId) (f : α → α)
    (hf : ∀ q, key (f q) = key q) :
    findByKey key (updateByKey key xs u f) u = (findByKey key xs u).map f := by
  induction xs with
  | nil => rfl
  | cons x rest ih =>
    unfold updateByKey findByKey
    rw [List.map_cons]
    by_cases hx : key x = u
    · rw [if_pos hx]
      rw [List.find?_cons_of_pos _ (by simp [hf x, hx])]
      rw [List.find?_cons_of_pos _ (by simp [hx])]
      rfl
    · rw [if_neg hx]
      rw [List.find?_cons_of_neg _ (by simp [hx])]
      rw [List.find?_cons_of_neg _ (by simp [hx])]
      exact ih

/-- The running maximum used by memoryFinalizeIfDone, starting from -1. -/
def memoryMaxScore (ps : List MemoryPlayer) : Int :=
  ps.foldl (fun m p => max m (p.score : Int)) (-1)

theorem foldl_max_init_le (ps : List MemoryPlayer) (init : Int) :
    init ≤ ps.foldl (fun m q => max m (q.score : Int)) init := by
  induction ps generalizing init with
  | nil => exact le_refl _
  | cons q rest ih => exact le_trans (le_max_left _ _) (ih _)

theorem mem_le_foldl_max (ps : List MemoryPlayer) (p : MemoryPlayer) (hp : p ∈ ps)
    (init : Int) : (p.score : Int) ≤ ps.foldl (fun m q => max m (q.score : Int)) init := by
  induction ps generalizing init with
  | nil => cases hp
  | cons q rest ih =>
    rcases List.mem_cons.mp hp with rfl | hp2
    · exact le_trans (le_max_right _ _) (foldl_max_init_le _ _)
    · exact ih hp2 _

theorem le_memoryMaxScore (ps : List MemoryPlayer) (p : MemoryPlayer) (hp : p ∈ ps) :
    (p.score : Int) ≤ memoryMaxScore ps :=
  mem_le_foldl_max ps p hp (-1)

theorem memoryFinalize_eq_notdone (r : MemoryRoom) (h : 2 * r.matchedCount < r.cardCount) :
    memoryFinalizeIfDone r = (false, r) := by
  unfold memoryFinalizeIfDone
  rw [if_pos h]

theorem memoryFinalize_eq_done (r : MemoryRoom) (h : ¬ 2 * r.matchedCount < r.cardCount) :
    memoryFinalizeIfDone r =
      (true,
       { r with status := .ended, turnUserId := none, revealedIndices := [],
                resolving := false, resolveTimer := false,
                winners := (r.players.filter
                  (fun p => decide ((p.score : Int) = memoryMaxScore r.players))).map
                  (fun p => MemoryWinner.mk p.userId p.username p.score) }) := by
  unfold memoryFinalizeIfDone memoryMaxScore
  rw [if_neg h]

/-- C8: a legal memory pick that reveals the second card of a matching pair
marks both cards matched, bumps matchedCount by one, clears the revealed
indices, bumps the acting player's score by exactly one, and leaves the turn
with the actor while the game continues; when the pair was the last one
(matchedCount reaches cardCount/2), the game instead ends with winners
exactly the players whose score equals the maximum score, each listed with
that score. -/
theorem c8_memory_pick_match (r : MemoryRoom) (caller : UserId) (a i : Nat)
    (hs : r.status = .playing)
    (ht : r.turnUserId = some caller)
    (hres : r.resolving = false)
    (hrev : r.revealedIndices = [a])
    (ha : a < r.cards.length)
    (hi : i < r.cards.length)
    (hne : ¬ i = a)
    (hnotm : (r.cards.getD i memoryDefaultCard).matched = false)
    (hkeyq : (r.cards.getD a memoryDefaultCard).countryKey
      = (r.cards.getD i memoryDefaultCard).countryKey) :
    ((memoryPick r caller (i : Int)).2.cards.getD a memoryDefaultCard).matched = true ∧
    ((memoryPick r caller (i : Int)).2.cards.getD i memoryDefaultCard).matched = true ∧
    (memoryPick r caller (i : Int)).2.matchedCount = r.matchedCount + 1 ∧
    (memoryPick r caller (i : Int)).2.revealedIndices = [] ∧
    (findByKey MemoryPlayer.userId (memoryPick r caller (i : Int)).2.players caller)
      = (findByKey MemoryPlayer.userId r.players caller).map
          (fun p => { p with score := p.score + 1 }) ∧
    (2 * (r.matchedCount + 1) < r.cardCount →
      (memoryPick r caller (i : Int)).1 = .ok .matchFound ∧
      (memoryPick r caller (i : Int)).2.status = .playing ∧
      (memoryPick r caller (i : Int)).2.turnUserId = some caller) ∧
    (¬ 2 * (r.matchedCount + 1) < r.cardCount →
      (memoryPick r caller (i : Int)).1 = .ok .endedGame ∧
      (memoryPick r caller (i : Int)).2.status = .ended ∧
      (memoryPick r caller (i : Int)).2.winners =
        ((memoryPick r caller (i : Int)).2.players.filter
          (fun p => decide ((p.score : Int)
            = memoryMaxScore (memoryPick r caller (i : Int)).2.players))).map
          (fun p => MemoryWinner.mk p.userId p.username p.score) ∧
      (∀ p ∈ (memoryPick r caller (i : Int)).2.players,
        (p.score : Int) ≤ memoryMaxScore (memoryPick r caller (i : Int)).2.players)) := by
  have hto : ((i : Int)).toNat = i := by simp
  have hnotm2 : ¬ (r.cards.getD i memoryDefaultCard).matched = true := by
    rw [hnotm]
    exact Bool.false_ne_true
  unfold memoryPick
  rw [if_neg (by simp [hs])]
  rw [if_neg (by simp [ht])]
  rw [if_neg (by simp [hres])]
  rw [if_neg (show ¬ ¬ (0 ≤ (i : Int) ∧ (i : Int) < (r.cards.length : Int)) from
    by simp only [not_not]; exact ⟨Int.ofNat_nonneg i, by exact_mod_cast hi⟩)]
  dsimp only
  rw [hto]
  rw [if_neg hnotm2]
  rw [if_neg (by simp [hrev, hne])]
  rw [hrev]
  simp only [List.singleton_append]
  rw [if_neg (by simp)]
  simp only [List.getD_cons_zero, List.getD_cons_succ]
  rw [if_pos hkeyq]
  by_cases hdone : 2 * (r.matchedCount + 1) < r.cardCount
  · rw [memoryFinalize_eq_notdone _ (by exact hdone)]
    rw [if_neg (by simp)]
    refine ⟨?_, ?_, rfl, rfl, ?_, fun _ => ⟨rfl, hs, ht⟩, fun hcontra => absurd hdone hcontra⟩
    · rw [listModify_getD_ne _ i a _ _ (fun hc => hne hc.symm)]
      rw [listModify_getD_self _ a _ _ ha]
    · rw [listModify_getD_self _ i _ _ (by rw [listModify_length]; exact hi)]
    · exact findByKey_updateByKey _ _ _ _ (fun q => rfl)
  · rw [memoryFinalize_eq_done _ (by exact hdone)]
    rw [if_pos rfl]
    refine ⟨?_, ?_, rfl, rfl, ?_, fun hcontra => absurd hcontra hdone, fun _ => ⟨rfl, rfl, rfl, ?_⟩⟩
    · rw [listModify_getD_ne _ i a _ _ (fun hc => hne hc.symm)]
      rw [listModify_getD_self _ a _ _ ha]
    · rw [listModify_getD_self _ i _ _ (by rw [listModify_length]; exact hi)]
    · exact findByKey_updateByKey _ _ _ _ (fun q => rfl)
    · intro p hp
      exact le_memoryMaxScore _ p hp

/-- The deck and room of the C8 witness: four cards (kr, us, kr, us), alice
has already revealed card 0 and is about to pick its partner, card 2. -/
def c8Room : MemoryRoom :=
  let deck : List MemoryCard :=
    [⟨0, "kr", "", "", false⟩, ⟨1, "us", "", "", false⟩,
     ⟨2, "kr", "", "", false⟩, ⟨3, "us", "", "", false⟩]
  let m0 := memoryCreate "A" "alice" 20
  let m1 := (memoryJoin m0 "B" "bob").2
  let m2 := (memoryStart m1 "A" (some 20) deck).2
  (memoryPick m2 "A" 0).2

/-- C8 witness: the match theorem applied to the concrete pair pick. -/
theorem c8_witness :
    ((memoryPick c8Room "A" ((2 : Nat) : Int)).2.cards.getD 0 memoryDefaultCard).matched
      = true ∧
    (memoryPick c8Room "A" ((2 : Nat) : Int)).2.matchedCount = c8Room.matchedCount + 1 ∧
    (memoryPick c8Room "A" ((2 : Nat) : Int)).1 = .ok .matchFound := by
  have h := c8_memory_pick_match c8Room "A" 0 2 (by decide) (by decide) (by decide)
    (by decide) (by decide) (by decide) (by decide) (by decide) (by decide)
  exact ⟨h.1, h.2.2.1, (h.2.2.2.2.2.1 (by decide)).1⟩

/-! ## Error atomicity: an error response leaves the room untouched (C4) -/

theorem crocJoin_err_frame (r : CrocRoom) (u : UserId) (un : String) (e : String) :
    (crocJoin r u un).1 = .error e → (crocJoin r u un).2 = r := by
  unfold crocJoin
  dsimp only
  repeat' split
  all_goals intro he
  all_goals first
    | rfl
    | exact Except.noConfusion he

theorem crocStart_err_frame (r : CrocRoom) (c : UserId) (t : Int) (trap : Nat) (e : String) :
    (crocStart r c t trap).1 = .error e → (crocStart r c t trap).2 = r := by
  unfold crocStart
  dsimp only
  repeat' split
  all_goals intro he
  all_goals first
    | rfl
    | exact Except.noConfusion he

theorem crocPick_err_frame (r : CrocRoom) (c : UserId) (tooth : Int) (e : String) :
    (crocPick r c tooth).1 = .error e → (crocPick r c tooth).2 = r := by
  unfold crocPick
  dsimp only
  repeat' split
  all_goals intro he
  all_goals first
    | rfl
    | exact Except.noConfusion he

theorem crocSseOpen_err_frame (r : CrocRoom) (u : UserId) (e : String) :
    (crocSseOpen r u).1 = .error e → (crocSseOpen r u).2 = r := by
  unfold crocSseOpen
  dsimp only
  repeat' split
  all_goals intro he
  all_goals first
    | rfl
    | exact Except.noConfusion he

theorem memoryJoin_err_frame (r : MemoryRoom) (u : UserId) (un : String) (e : String) :
    (memoryJoin r u un).1 = .error e → (memoryJoin r u un).2 = r := by
  unfold memoryJoin
  dsimp only
  repeat' split
  all_goals intro he
  all_goals first
    | rfl
    | exact Except.noConfusion he

theorem memoryStart_err_frame (r : MemoryRoom) (c : UserId) (cc : Option Int)
    (deck : List MemoryCard) (e : String) :
    (memoryStart r c cc deck).1 = .error e → (memoryStart r c cc deck).2 = r := by
  unfold memoryStart
  dsimp only
  repeat' split
  all_goals intro he
  all_goals first
    | rfl
    | exact Except.noConfusion he

theorem memoryPick_err_frame (r : MemoryRoom) (c : UserId) (index : Int) (e : String) :
    (memoryPick r c index).1 = .error e → (memoryPick r c index).2 = r := by
  unfold memoryPick memoryResolveMismatchLater
  repeat' split
  all_goals try exact fun he => rfl
  all_goals dsimp only
  all_goals repeat' split
  all_goals intro he
  all_goals first
    | rfl
    | exact Except.noConfusion he

theorem memorySseOpen_err_frame (r : MemoryRoom) (u : UserId) (e : String) :
    (memorySseOpen r u).1 = .error e → (memorySseOpen r u).2 = r := by
  unfold memorySseOpen
  dsimp only
  repeat' split
  all_goals intro he
  all_goals first
    | rfl
    | exact Except.noConfusion he

theorem gomokuJoin_err_frame (r : GomokuRoom) (u : UserId) (un : String) (e : String) :
    (gomokuJoin r u un).1 = .error e → (gomokuJoin r u un).2 = r := by
  unfold gomokuJoin
  dsimp only
  repeat' split
  all_goals intro he
  all_goals first
    | rfl
    | exact Except.noConfusion he

theorem gomokuStart_err_frame (r : GomokuRoom) (c : UserId) (e : String) :
    (gomokuStart r c).1 = .error e → (gomokuStart r c).2 = r := by
  unfold gomokuStart
  dsimp only
  repeat' split
  all_goals intro he
  all_goals first
    | rfl
    | exact Except.noConfusion he

theorem gomokuMove_err_frame (r : GomokuRoom) (c : UserId) (index : Int) (e : String) :
    (gomokuMove r c index).1 = .error e → (gomokuMove r c index).2 = r := by
  unfold gomokuMove
  dsimp only
  repeat' split
  all_goals intro he
  all_goals first
    | rfl
    | exact Except.noConfusion he

theorem gomokuSseOpen_err_frame (r : GomokuRoom) (u : UserId) (e : String) :
    (gomokuSseOpen r u).1 = .error e → (gomokuSseOpen r u).2 = r := by
  unfold gomokuSseOpen
  dsimp only
  repeat' split
  all_goals intro he
  all_goals first
    | rfl
    | exact Except.noConfusion he

theorem drawNextNumber_err_frame (r : BingoRoom) (actor : UserId) (reason : String)
    (num : Int) (now : Nat) (e : String) :
    (drawNextNumber r actor reason num now).1 = .error e →
    (drawNextNumber r actor reason num now).2 = r := by
  unfold drawNextNumber
  dsimp only
  repeat' split
  all_goals intro he
  all_goals first
    | rfl
    | exact Except.noConfusion he

theorem bingoDraw_err_frame (r : BingoRoom) (c : UserId) (num : Int) (now : Nat)
    (e : String) : (bingoDraw r c num now).1 = .error e → (bingoDraw r c num now).2 = r := by
  unfold bingoDraw
  repeat' split
  all_goals first
    | exact fun he => rfl
    | exact drawNextNumber_err_frame r c "manual_pick" num now e

theorem bingoSseOpen_err_frame (r : BingoRoom) (u : UserId) (e : String) :
    (bingoSseOpen r u).1 = .error e → (bingoSseOpen r u).2 = r := by
  unfold bingoSseOpen
  dsimp only
  repeat' split
  all_goals intro he
  all_goals first
    | rfl
    | exact Except.noConfusion he

theorem countHumanPlayers_pos_of_hasKey (r : BingoRoom) (c : UserId)
    (hc : hasKey BingoPlayer.userId r.players c = true) (hne : ¬ c = BINGO_BOT_USER_ID) :
    1 ≤ countHumanPlayers r := by
  unfold hasKey findByKey at hc
  rcases Option.isSome_iff_exists.mp hc with ⟨p, hp⟩
  have hmem := List.mem_of_find?_eq_some hp
  have hkey : p.userId = c := by simpa using List.find?_some hp
  unfold countHumanPlayers
  have hpf : p ∈ r.players.filter (fun q => decide (¬ q.userId = BINGO_BOT_USER_ID)) := by
    rw [List.mem_filter]
    exact ⟨hmem, by simp [hkey, hne]⟩
  exact List.length_pos_of_mem hpf

theorem bingoJoin_err_frame (r : BingoRoom) (u : UserId) (un : String) (nums : List Nat)
    (e : String)
    (hbot : hasKey BingoPlayer.userId r.players BINGO_BOT_USER_ID = true →
      countHumanPlayers r ≤ 1) :
    (bingoJoin r u un nums).1 = .error e → (bingoJoin r u un nums).2 = r := by
  unfold bingoJoin
  dsimp only
  repeat' split
  all_goals intro he
  all_goals first
    | rfl
    | exact Except.noConfusion he
    | (exfalso
       rename_i hcond hfull
       rw [countHumanPlayers_removeBot] at hfull
       have h1 := hbot hcond.2
       omega)

theorem bingoStart_err_frame (r : BingoRoom) (c : UserId) (t : Int)
    (b : List (List Nat)) (now : Nat) (e : String)
    (hhost : ∀ h, r.hostUserId = some h →
      hasKey BingoPlayer.userId r.players h = true ∧ ¬ h = BINGO_BOT_USER_ID) :
    (bingoStart r c t b now).1 = .error e → (bingoStart r c t b now).2 = r := by
  unfold bingoStart
  dsimp only
  repeat' split
  all_goals intro he
  all_goals first
    | rfl
    | exact Except.noConfusion he
    | (exfalso
       rename_i hhostc x1 x2 x3 hcount
       rw [countHumanPlayers_sync] at hcount
       rcases hhost c (not_not.mp hhostc) with ⟨hck, hcb⟩
       have h1 := countHumanPlayers_pos_of_hasKey r c hck hcb
       omega)

/-- C4: error atomicity.  Whenever an operation answers ok:false with an
error identifier, the room state is exactly what it was before the call.
Join, start, the game moves and the stream-open path of every game are
covered; the leave handlers and stream-close paths have no error response at
room level (room_not_found is resolved against the registry before any room
is touched), and create fails only on registry-level code collision, again
before a room exists.  The two bingo conjuncts carry the reachable-state
side conditions that make the handler's late validations unreachable: a
seated bot implies at most one human (bot sync discipline), and the host is
always a seated human player. -/
theorem c4_error_responses_leave_room_unchanged :
    (∀ r u un e, (crocJoin r u un).1 = .error e → (crocJoin r u un).2 = r) ∧
    (∀ r c t trap e, (crocStart r c t trap).1 = .error e → (crocStart r c t trap).2 = r) ∧
    (∀ r c tooth e, (crocPick r c tooth).1 = .error e → (crocPick r c tooth).2 = r) ∧
    (∀ r u e, (crocSseOpen r u).1 = .error e → (crocSseOpen r u).2 = r) ∧
    (∀ r u un e, (memoryJoin r u un).1 = .error e → (memoryJoin r u un).2 = r) ∧
    (∀ r c cc deck e, (memoryStart r c cc deck).1 = .error e → (memoryStart r c cc deck).2 = r) ∧
    (∀ r c index e, (memoryPick r c index).1 = .error e → (memoryPick r c index).2 = r) ∧
    (∀ r u e, (memorySseOpen r u).1 = .error e → (memorySseOpen r u).2 = r) ∧
    (∀ r u un e, (gomokuJoin r u un).1 = .error e → (gomokuJoin r u un).2 = r) ∧
    (∀ r c e, (gomokuStart r c).1 = .error e → (gomokuStart r c).2 = r) ∧
    (∀ r c index e, (gomokuMove r c index).1 = .error e → (gomokuMove r c index).2 = r) ∧
    (∀ r u e, (gomokuSseOpen r u).1 = .error e → (gomokuSseOpen r u).2 = r) ∧
    (∀ r a reason num now e, (drawNextNumber r a reason num now).1 = .error e →
      (drawNextNumber r a reason num now).2 = r) ∧
    (∀ r c num now e, (bingoDraw r c num now).1 = .error e → (bingoDraw r c num now).2 = r) ∧
    (∀ r u e, (bingoSseOpen r u).1 = .error e → (bingoSseOpen r u).2 = r) ∧
    (∀ r u un nums e,
      (hasKey BingoPlayer.userId r.players BINGO_BOT_USER_ID = true →
        countHumanPlayers r ≤ 1) →
      (bingoJoin r u un nums).1 = .error e → (bingoJoin r u un nums).2 = r) ∧
    (∀ r c t b now e,
      (∀ h, r.hostUserId = some h →
        hasKey BingoPlayer.userId r.players h = true ∧ ¬ h = BINGO_BOT_USER_ID) →
      (bingoStart r c t b now).1 = .error e → (bingoStart r c t b now).2 = r) :=
  ⟨crocJoin_err_frame, crocStart_err_frame, crocPick_err_frame, crocSseOpen_err_frame,
   memoryJoin_err_frame, memoryStart_err_frame, memoryPick_err_frame, memorySseOpen_err_frame,
   gomokuJoin_err_frame, gomokuStart_err_frame, gomokuMove_err_frame, gomokuSseOpen_err_frame,
   drawNextNumber_err_frame, bingoDraw_err_frame, bingoSseOpen_err_frame,
   fun r u un nums e hbot => bingoJoin_err_frame r u un nums e hbot,
   fun r c t b now e hhost => bingoStart_err_frame r c t b now e hhost⟩

/-- C4 witness: a premature croc pick errors with not_playing and leaves the
fresh room untouched, and a bingo start with an invalid timeout errors
without touching the vsComputer room. -/
theorem c4_witness :
    (crocPick (crocCreate "A" "alice") "A" 1).2 = crocCreate "A" "alice" ∧
    (bingoStart c2Room "A" 4 [] 0).2 = c2Room :=
  ⟨c4_error_responses_leave_room_unchanged.2.2.1 (crocCreate "A" "alice") "A" 1
     "not_playing" (by decide),
   c4_error_responses_leave_room_unchanged.2.2.2.2.2.2.2.2.2.2.2.2.2.2.2.2 c2Room "A" 4 [] 0
     "invalid_draw_timeout_seconds" (by decide) (by decide)⟩

/-! ## Leave is idempotent (C9) -/

theorem mem_removeByKey_ne {key : α → UserId} {xs : List α} {u : UserId} (p : α)
    (hp : p ∈ removeByKey key xs u) : ¬ key p = u := by
  have h2 := (List.mem_filter.mp hp).2
  simpa using h2

@[simp]
theorem crocSetTurnByCursor_hostUserId (r : CrocRoom) :
    (crocSetTurnByCursor r).hostUserId = r.hostUserId := by
  unfold crocSetTurnByCursor
  split <;> rfl

@[simp]
theorem crocSetTurnByCursor_turnOrder (r : CrocRoom) :
    (crocSetTurnByCursor r).turnOrder = r.turnOrder := by
  unfold crocSetTurnByCursor
  split <;> rfl

theorem crocLeave_players (r : CrocRoom) (u : UserId) :
    (crocLeave r u).players = removeByKey CrocPlayer.userId r.players u := by
  unfold crocLeave
  dsimp only
  repeat' split
  all_goals first
    | rfl
    | rw [crocSetTurnByCursor_players]

theorem crocLeave_connections (r : CrocRoom) (u : UserId) :
    (crocLeave r u).connections = connDel r.connections u := by
  unfold crocLeave
  dsimp only
  repeat' split
  all_goals first
    | rfl
    | rw [crocSetTurnByCursor_connections]

theorem crocLeave_turnOrder (r : CrocRoom) (u : UserId) :
    (crocLeave r u).turnOrder = r.turnOrder.filter (fun id => decide (¬ id = u)) := by
  unfold crocLeave
  dsimp only
  repeat' split
  all_goals first
    | rfl
    | rw [crocSetTurnByCursor_turnOrder]

theorem crocLeave_host (r : CrocRoom) (u : UserId) :
    ¬ (crocLeave r u).hostUserId = some u := by
  unfold crocLeave
  dsimp only
  repeat' split
  all_goals intro hc
  all_goals try rw [crocSetTurnByCursor_hostUserId] at hc
  all_goals first
    | (rcases Option.map_eq_some'.mp hc with ⟨p, hp, hpu⟩
       exact mem_removeByKey_ne p (List.mem_of_mem_head? hp) hpu)
    | exact absurd hc (by assumption)

theorem crocSetTurnByCursor_turnUserId_cases (x : CrocRoom) :
    (crocSetTurnByCursor x).turnUserId = none ∨
    ∃ tu, (crocSetTurnByCursor x).turnUserId = some tu ∧ tu ∈ x.turnOrder := by
  unfold crocSetTurnByCursor
  split
  · exact Or.inl rfl
  · rename_i hlen
    have hlt : x.turnCursor % x.turnOrder.length < x.turnOrder.length :=
      Nat.mod_lt _ (Nat.pos_of_ne_zero hlen)
    exact Or.inr ⟨x.turnOrder[x.turnCursor % x.turnOrder.length],
      by dsimp only; rw [List.getElem?_eq_getElem hlt], List.getElem_mem hlt⟩

theorem crocLeave_playing_facts (r : CrocRoom) (u : UserId) :
    (crocLeave r u).status = .playing →
    ¬ (crocLeave r u).turnUserId = some u ∧ (crocLeave r u).turnOrder ≠ [] := by
  unfold crocLeave
  dsimp only
  repeat' split
  all_goals intro hst
  all_goals first
    | exact Status.noConfusion hst
    | (rename_i hcondA hcondB
       constructor
       · intro hc
         rcases crocSetTurnByCursor_turnUserId_cases _ with hnone | ⟨tu, htu, hmem⟩
         · rw [hnone] at hc
           exact Option.noConfusion hc
         · rw [htu] at hc
           rcases Option.some.inj hc with rfl
           have hmf := List.mem_filter.mp hmem
           simp at hmf
       · rw [crocSetTurnByCursor_turnOrder]
         intro he
         dsimp only at he
         have h3 := hcondA.2.2
         dsimp only at h3
         rw [he] at h3
         exact Nat.lt_irrefl 0 h3)
    | (rename_i hn1 hn2
       constructor
       · intro hc
         have hlen : ¬ ((r.turnOrder.filter (fun id => decide (¬ id = u))).length = 0) :=
           fun he => hn2 ⟨hst, he⟩
         exact hn1 ⟨hst, hc, Nat.pos_of_ne_zero hlen⟩
       · intro he
         exact hn2 ⟨hst, by rw [he]; rfl⟩)

theorem crocLeave_eq_self (r : CrocRoom) (u : UserId)
    (h1 : removeByKey CrocPlayer.userId r.players u = r.players)
    (h2 : connDel r.connections u = r.connections)
    (h3 : r.turnOrder.filter (fun id => decide (¬ id = u)) = r.turnOrder)
    (h4 : ¬ r.hostUserId = some u)
    (h5 : r.status = .playing → ¬ r.turnUserId = some u ∧ r.turnOrder ≠ []) :
    crocLeave r u = r := by
  unfold crocLeave
  dsimp only
  rw [h1, h2, h3]
  have hr : ({ r with players := r.players, connections := r.connections, turnOrder := r.turnOrder } : CrocRoom) = r := rfl
  rw [hr]
  rw [if_neg h4]
  by_cases hp : r.status = .playing
  · rcases h5 hp with ⟨ht, hne⟩
    rw [if_neg (fun hc => ht hc.2.1),
        if_neg (fun hc => hne (List.length_eq_zero.mp hc.2))]
  · rw [if_neg (fun hc => hp hc.1), if_neg (fun hc => hp hc.1)]

theorem crocLeave_idem (r : CrocRoom) (u : UserId) :
    crocLeave (crocLeave r u) u = crocLeave r u := by
  apply crocLeave_eq_self
  · rw [crocLeave_players]
    exact filter_idem _ _
  · rw [crocLeave_connections]
    exact filter_idem _ _
  · rw [crocLeave_turnOrder]
    exact filter_idem _ _
  · exact crocLeave_host r u
  · exact crocLeave_playing_facts r u
theorem memorySetTurnByCursor_turnOrder (r : MemoryRoom) :
    (memorySetTurnByCursor r).turnOrder = r.turnOrder := by
  unfold memorySetTurnByCursor
  split <;> rfl

theorem memorySetTurnByCursor_hostUserId (r : MemoryRoom) :
    (memorySetTurnByCursor r).hostUserId = r.hostUserId := by
  unfold memorySetTurnByCursor
  split <;> rfl

theorem memorySetTurnByCursor_revealedIndices (r : MemoryRoom) :
    (memorySetTurnByCursor r).revealedIndices = r.revealedIndices := by
  unfold memorySetTurnByCursor
  split <;> rfl

theorem memorySetTurnByCursor_resolving (r : MemoryRoom) :
    (memorySetTurnByCursor r).resolving = r.resolving := by
  unfold memorySetTurnByCursor
  split <;> rfl

theorem memorySetTurnByCursor_resolveTimer (r : MemoryRoom) :
    (memorySetTurnByCursor r).resolveTimer = r.resolveTimer := by
  unfold memorySetTurnByCursor
  split <;> rfl

theorem memorySetTurnByCursor_turnUserId_cases (x : MemoryRoom) :
    (x.turnOrder.length = 0 ∧ (memorySetTurnByCursor x).turnUserId = none) ∨
    ∃ i, i < x.turnOrder.length ∧ (memorySetTurnByCursor x).turnCursor = i ∧
      (memorySetTurnByCursor x).turnUserId = x.turnOrder[i]? := by
  unfold memorySetTurnByCursor
  split
  · exact Or.inl ⟨by assumption, rfl⟩
  · rename_i h
    exact Or.inr ⟨x.turnCursor % x.turnOrder.length,
      Nat.mod_lt _ (Nat.pos_of_ne_zero h), rfl, rfl⟩

theorem memoryLeave_players (r : MemoryRoom) (u : UserId) :
    (memoryLeave r u).players = removeByKey MemoryPlayer.userId r.players u := by
  unfold memoryLeave
  dsimp only
  repeat' split
  all_goals first
    | rfl
    | rw [memorySetTurnByCursor_players]

theorem memoryLeave_connections (r : MemoryRoom) (u : UserId) :
    (memoryLeave r u).connections = connDel r.connections u := by
  unfold memoryLeave
  dsimp only
  repeat' split
  all_goals first
    | rfl
    | rw [memorySetTurnByCursor_connections]

theorem memoryLeave_turnOrder (r : MemoryRoom) (u : UserId) :
    (memoryLeave r u).turnOrder = r.turnOrder.filter (fun id => decide (¬ id = u)) := by
  unfold memoryLeave
  dsimp only
  repeat' split
  all_goals first
    | rfl
    | rw [memorySetTurnByCursor_turnOrder]

theorem memoryLeave_host (r : MemoryRoom) (u : UserId) :
    ¬ (memoryLeave r u).hostUserId = some u := by
  unfold memoryLeave
  dsimp only
  repeat' split
  all_goals intro hc
  all_goals try rw [memorySetTurnByCursor_hostUserId] at hc
  all_goals first
    | (rcases Option.map_eq_some'.mp hc with ⟨p, hp, hpu⟩
       exact mem_removeByKey_ne p (List.mem_of_mem_head? hp) hpu)
    | exact absurd hc (by assumption)

theorem memoryLeave_revealed (r : MemoryRoom) (u : UserId) :
    (memoryLeave r u).revealedIndices = [] := by
  unfold memoryLeave
  dsimp only
  repeat' split
  all_goals first
    | rfl
    | rw [memorySetTurnByCursor_revealedIndices]

theorem memoryLeave_resolving (r : MemoryRoom) (u : UserId) :
    (memoryLeave r u).resolving = false := by
  unfold memoryLeave
  dsimp only
  repeat' split
  all_goals first
    | rfl
    | rw [memorySetTurnByCursor_resolving]

theorem memoryLeave_resolveTimer (r : MemoryRoom) (u : UserId) :
    (memoryLeave r u).resolveTimer = false := by
  unfold memoryLeave
  dsimp only
  repeat' split
  all_goals first
    | rfl
    | rw [memorySetTurnByCursor_resolveTimer]

theorem memoryLeave_playing_facts (r : MemoryRoom) (u : UserId) (hnd : r.turnOrder.Nodup) :
    (memoryLeave r u).status = .playing →
    (memoryLeave r u).turnOrder ≠ [] ∧ ¬ (memoryLeave r u).turnUserId = some u ∧
    ∃ tu, (memoryLeave r u).turnUserId = some tu ∧ tu ∈ (memoryLeave r u).turnOrder ∧
      (memoryLeave r u).turnOrder.indexOf tu = (memoryLeave r u).turnCursor := by
  unfold memoryLeave
  dsimp only
  repeat' split
  all_goals intro hst
  all_goals first
    | exact Status.noConfusion hst
    | exact absurd hst (by assumption)
    | (rename_i hlen hor hcl
       refine ⟨?_, ?_, ?_⟩
       · rw [memorySetTurnByCursor_turnOrder]
         intro he
         dsimp only at he hlen
         exact hlen (by rw [he]; rfl)
       · intro hc
         rcases memorySetTurnByCursor_turnUserId_cases _ with ⟨h0, hnone⟩ | ⟨i, hlt, hcur, htu⟩
         · rw [hnone] at hc
           exact Option.noConfusion hc
         · rw [htu] at hc
           have hmf := List.mem_filter.mp (List.getElem?_mem hc)
           simp at hmf
       · rcases memorySetTurnByCursor_turnUserId_cases _ with ⟨h0, hnone⟩ | ⟨i, hlt, hcur, htu⟩
         · rw [hnone]
           exact absurd h0 hlen
         · rw [hcur]
           rw [List.getElem?_eq_getElem hlt] at htu
           exact ⟨_, htu,
             by rw [memorySetTurnByCursor_turnOrder]; exact List.getElem_mem hlt,
             by rw [memorySetTurnByCursor_turnOrder]
                exact List.indexOf_getElem (hnd.filter _) i hlt⟩)
    | (rename_i hlen hor x2 tu2 hsome
       have hnt : ¬ r.turnUserId = some u := fun h => hor (Or.inl h)
       rcases not_not.mp (fun h => hor (Or.inr h)) with ⟨tu, htu, hmem⟩
       have htt := Option.some.inj (htu.symm.trans hsome)
       subst htt
       refine ⟨?_, ?_, ⟨_, hsome, hmem, rfl⟩⟩
       · intro he
         dsimp only at he hlen
         exact hlen (by rw [he]; rfl)
       · intro hc
         exact hnt hc)
    | (rename_i hor x2 hnone
       rcases not_not.mp (fun h => hor (Or.inr h)) with ⟨tu, htu, hmem⟩
       rw [hnone] at htu
       exact Option.noConfusion htu)

theorem memoryRoom_clear_eq_self (r : MemoryRoom) (hrt : r.resolveTimer = false)
    (hrv : r.revealedIndices = []) (hrs : r.resolving = false) :
    ({ r with resolveTimer := false, revealedIndices := [], resolving := false } : MemoryRoom) = r := by
  cases r
  dsimp only at hrt hrv hrs ⊢
  rw [hrt, hrv, hrs]

theorem memoryLeave_eq_self (r : MemoryRoom) (u : UserId)
    (h1 : removeByKey MemoryPlayer.userId r.players u = r.players)
    (h2 : connDel r.connections u = r.connections)
    (h3 : r.turnOrder.filter (fun id => decide (¬ id = u)) = r.turnOrder)
    (h4 : ¬ r.hostUserId = some u)
    (hrt : r.resolveTimer = false)
    (hrv : r.revealedIndices = [])
    (hrs : r.resolving = false)
    (h5 : r.status = .playing → r.turnOrder ≠ [] ∧ ¬ r.turnUserId = some u ∧
      ∃ tu, r.turnUserId = some tu ∧ tu ∈ r.turnOrder ∧ r.turnOrder.indexOf tu = r.turnCursor) :
    memoryLeave r u = r := by
  unfold memoryLeave
  dsimp only
  rw [h1, h2, h3]
  have hr : ({ r with players := r.players, connections := r.connections, turnOrder := r.turnOrder } : MemoryRoom) = r := rfl
  rw [hr, if_neg h4, memoryRoom_clear_eq_self r hrt hrv hrs]
  by_cases hp : r.status = .playing
  · rcases h5 hp with ⟨hne, hnt, tu, htu, hmem, hidx⟩
    rw [if_pos hp, if_neg (fun hc => hne (List.length_eq_zero.mp hc)),
        if_neg (fun hc => hc.elim hnt (fun h => h ⟨tu, htu, hmem⟩))]
    rw [htu]
    show ({ r with revealedIndices := [], resolving := false, resolveTimer := false, turnCursor := r.turnOrder.indexOf tu, turnUserId := some tu } : MemoryRoom) = r
    rw [hidx, ← htu]
    exact memoryRoom_clear_eq_self r hrt hrv hrs
  · rw [if_neg hp]

theorem memoryLeave_idem (r : MemoryRoom) (u : UserId) (hnd : r.turnOrder.Nodup) :
    memoryLeave (memoryLeave r u) u = memoryLeave r u := by
  apply memoryLeave_eq_self
  · rw [memoryLeave_players]
    exact filter_idem _ _
  · rw [memoryLeave_connections]
    exact filter_idem _ _
  · rw [memoryLeave_turnOrder]
    exact filter_idem _ _
  · exact memoryLeave_host r u
  · exact memoryLeave_resolveTimer r u
  · exact memoryLeave_revealed r u
  · exact memoryLeave_resolving r u
  · exact memoryLeave_playing_facts r u hnd
